import Mathlib

/-!
Verification of the `core` link-endpoint adapter (files
`pkg/netstack/core/gvisor_windows.go` and the unix/darwin variant).

The development shallow-embeds the code over `List Nat` byte buffers:
pure functions become Lean functions, the gvisor checksum/header library
calls made by the code are modelled by their standard Internet-checksum
semantics, the inbound pump loop becomes a recursion over a script of
device-read outcomes, and the concurrent outbound drain becomes a step
relation on an explicit two-thread state.
-/

namespace Shadow

/-! ## Checksum engine model

Models `gvisor.dev/gvisor/pkg/tcpip/checksum` as used by `endpoint.Write`:
16-bit ones'-complement addition over big-endian 16-bit words, an odd
trailing byte acting as the high byte of a final word. -/

/-- Ones'-complement addition of two 16-bit quantities (end-around carry). -/
def onesAdd (a b : Nat) : Nat :=
  if a + b < 65536 then a + b else a + b - 65535

/-- Split a byte sequence into big-endian 16-bit words; an odd trailing
byte is the high byte of the final word (standard Internet checksum
padding, as in gvisor `checksum.Checksum`). -/
def words16 : List Nat → List Nat
  | [] => []
  | [a] => [a * 256]
  | a :: b :: rest => (a * 256 + b) :: words16 rest

/-- Models `checksum.Checksum(buf, initial)`: ones'-complement sum of `buf`
starting from `initial`. -/
def chks (init : Nat) (b : List Nat) : Nat :=
  (words16 b).foldl onesAdd init

/-- Read a byte (`b[i]`); out-of-range reads default to 0. -/
def byteAt (b : List Nat) (i : Nat) : Nat := b.getD i 0

/-- Models `binary.BigEndian.Uint16(b[i:])`. -/
def get16 (b : List Nat) (i : Nat) : Nat := byteAt b i * 256 + byteAt b (i + 1)

/-- Models `binary.BigEndian.PutUint16(b[i:], v)`. -/
def set16 (b : List Nat) (i v : Nat) : List Nat :=
  (b.set i (v / 256)).set (i + 1) (v % 256)

/-! ## Header accessors (gvisor `header` package, as used by the code) -/

/-- Models `header.IPVersion(b)`: -1 if the buffer is empty, else the high
nibble of the first byte. -/
def IPVersion (b : List Nat) : Int :=
  if b.length < 1 then -1 else ((byteAt b 0 / 16 : Nat) : Int)

/-- Models `IPv4.HeaderLength()`: IHL (low nibble of byte 0) times 4. -/
def ipv4HeaderLength (b : List Nat) : Nat := (byteAt b 0 % 16) * 4

/-- Models `IPv4.TotalLength()`: bytes 2..3, big endian. -/
def ipv4TotalLength (b : List Nat) : Nat := get16 b 2

/-- Models `IPv4.Protocol()` / `IPv4.TransportProtocol()`: byte 9. -/
def ipv4Protocol (b : List Nat) : Nat := byteAt b 9

/-- Models `IPv4.SourceAddress()`: bytes 12..15. -/
def ipv4SourceAddress (b : List Nat) : List Nat := (b.drop 12).take 4

/-- Models `IPv4.DestinationAddress()`: bytes 16..19. -/
def ipv4DestinationAddress (b : List Nat) : List Nat := (b.drop 16).take 4

/-- Models `IPv4.PayloadLength()`: total length minus header length. -/
def ipv4PayloadLength (b : List Nat) : Nat :=
  ipv4TotalLength b - ipv4HeaderLength b

/-- Models `IPv4.Payload()`: the transport segment `b[HeaderLength():][:PayloadLength()]`. -/
def ipv4Payload (b : List Nat) : List Nat :=
  (b.drop (ipv4HeaderLength b)).take (ipv4TotalLength b - ipv4HeaderLength b)

/-- Models `IPv4.CalculateChecksum()`: checksum of the header bytes. -/
def ipv4CalculateChecksum (b : List Nat) : Nat :=
  chks 0 (b.take (ipv4HeaderLength b))

/-- Models `IPv4.SetChecksum(v)`: the checksum field is at bytes 10..11. -/
def ipv4SetChecksum (b : List Nat) (v : Nat) : List Nat := set16 b 10 v

/-- Models `IPv6.PayloadLength()`: bytes 4..5, big endian. -/
def ipv6PayloadLength (b : List Nat) : Nat := get16 b 4

/-- Models `IPv6.NextHeader()` / `IPv6.TransportProtocol()`: byte 6. -/
def ipv6NextHeader (b : List Nat) : Nat := byteAt b 6

/-- Models `IPv6.SourceAddress()`: bytes 8..23. -/
def ipv6SourceAddress (b : List Nat) : List Nat := (b.drop 8).take 16

/-- Models `IPv6.DestinationAddress()`: bytes 24..39. -/
def ipv6DestinationAddress (b : List Nat) : List Nat := (b.drop 24).take 16

/-- Models `IPv6.Payload()`: `b[40:][:PayloadLength()]`. -/
def ipv6Payload (b : List Nat) : List Nat :=
  (b.drop 40).take (ipv6PayloadLength b)

/-- Models `UDP.Length()`: bytes 4..5 of the UDP header. -/
def udpLength (seg : List Nat) : Nat := get16 seg 4

/-- Models `UDP.Payload()`: everything after the 8-byte UDP header. -/
def udpPayload (seg : List Nat) : List Nat := seg.drop 8

/-- Models `UDP.CalculateChecksum(acc)`: checksum of the 8 header bytes on top
of the partial checksum `acc`. -/
def udpCalculateChecksum (seg : List Nat) (acc : Nat) : Nat :=
  chks acc (seg.take 8)

/-- Models `TCP.DataOffset()`: high nibble of byte 12, times 4. -/
def tcpDataOffset (seg : List Nat) : Nat := (byteAt seg 12 / 16) * 4

/-- Models `TCP.Payload()`: everything after `DataOffset()` bytes. -/
def tcpPayload (seg : List Nat) : List Nat := seg.drop (tcpDataOffset seg)

/-- Models `TCP.CalculateChecksum(acc)`: checksum of the TCP header bytes
(`seg[:DataOffset()]`) on top of the partial checksum `acc`. -/
def tcpCalculateChecksum (seg : List Nat) (acc : Nat) : Nat :=
  chks acc (seg.take (tcpDataOffset seg))

/-- Models `header.PseudoHeaderChecksum(protocol, srcAddr, dstAddr, totalLen)`:
checksum of the two addresses, the length and the protocol number. -/
def pseudoHeaderChecksum (protocol : Nat) (srcAddr dstAddr : List Nat)
    (totalLen : Nat) : Nat :=
  chks (chks (chks (chks 0 srcAddr) dstAddr)
    [totalLen / 256, totalLen % 256]) [0, protocol]

/-! ## The push-producer `endpoint.Write` transformation
(`gvisor_windows.go`, lines 122-176) -/

/-- Models `pkt.SetChecksum(0); pkt.SetChecksum(^pkt.CalculateChecksum())` on an
IPv4 header (`endpoint.Write`, IPv4 arm). `^x` on `uint16` is `65535 - x`. -/
def recomputeIPv4Checksum (b : List Nat) : List Nat :=
  ipv4SetChecksum (ipv4SetChecksum b 0)
    (65535 - ipv4CalculateChecksum (ipv4SetChecksum b 0))

/-- The UDP-in-IPv4 arm of `endpoint.Write`: pseudo-header checksum over
the addresses and the UDP length field, add the UDP payload, zero the
UDP checksum field (at offset `HeaderLength()+6` in the buffer), then
write back the complement of the checksum over the UDP header. -/
def recomputeUDPv4 (b : List Nat) : List Nat :=
  set16 (set16 b (ipv4HeaderLength b + 6) 0) (ipv4HeaderLength b + 6)
    (65535 - udpCalculateChecksum
      (ipv4Payload (set16 b (ipv4HeaderLength b + 6) 0))
      (chks (pseudoHeaderChecksum 17 (ipv4DestinationAddress b)
          (ipv4SourceAddress b) (udpLength (ipv4Payload b)))
        (udpPayload (ipv4Payload b))))

/-- The TCP-in-IPv4 arm of `endpoint.Write`: like the UDP arm but the
pseudo-header uses `pkt.PayloadLength()` and the TCP checksum field is at
offset `HeaderLength()+16`. -/
def recomputeTCPv4 (b : List Nat) : List Nat :=
  set16 (set16 b (ipv4HeaderLength b + 16) 0) (ipv4HeaderLength b + 16)
    (65535 - tcpCalculateChecksum
      (ipv4Payload (set16 b (ipv4HeaderLength b + 16) 0))
      (chks (pseudoHeaderChecksum 6 (ipv4DestinationAddress b)
          (ipv4SourceAddress b) (ipv4PayloadLength b))
        (tcpPayload (ipv4Payload b))))

/-- The UDP-in-IPv6 arm of `endpoint.Write`: IPv6 has a fixed 40-byte
header and no header checksum; the UDP checksum field is at offset 46. -/
def recomputeUDPv6 (b : List Nat) : List Nat :=
  set16 (set16 b (40 + 6) 0) (40 + 6)
    (65535 - udpCalculateChecksum
      (ipv6Payload (set16 b (40 + 6) 0))
      (chks (pseudoHeaderChecksum 17 (ipv6DestinationAddress b)
          (ipv6SourceAddress b) (udpLength (ipv6Payload b)))
        (udpPayload (ipv6Payload b))))

/-- The TCP-in-IPv6 arm of `endpoint.Write`: pseudo-header uses
`pkt.PayloadLength()` (the IPv6 payload-length field); the TCP checksum
field is at offset 56. -/
def recomputeTCPv6 (b : List Nat) : List Nat :=
  set16 (set16 b (40 + 16) 0) (40 + 16)
    (65535 - tcpCalculateChecksum
      (ipv6Payload (set16 b (40 + 16) 0))
      (chks (pseudoHeaderChecksum 6 (ipv6DestinationAddress b)
          (ipv6SourceAddress b) (ipv6PayloadLength b))
        (tcpPayload (ipv6Payload b))))

/-- The checksum-repair part of `endpoint.Write`: switch on the IP
version, recompute the IPv4 header checksum, then switch on the
transport protocol (UDP = 17, TCP = 6); unknown versions/protocols pass
through untouched. -/
def writeBuf (b : List Nat) : List Nat :=
  if IPVersion b = 4 then
    if ipv4Protocol (recomputeIPv4Checksum b) = 17 then
      recomputeUDPv4 (recomputeIPv4Checksum b)
    else if ipv4Protocol (recomputeIPv4Checksum b) = 6 then
      recomputeTCPv4 (recomputeIPv4Checksum b)
    else recomputeIPv4Checksum b
  else if IPVersion b = 6 then
    if ipv6NextHeader b = 17 then recomputeUDPv6 b
    else if ipv6NextHeader b = 6 then recomputeTCPv6 b
    else b
  else b

/-- Result of `endpoint.Write`: the returned byte count, the returned
error, and the list of `(protocol, packet)` pairs injected into the
stack via `InjectInbound`. -/
structure WriteResult where
  n : Nat
  err : Option String
  injected : List (Nat × List Nat)
deriving DecidableEq

/-- Models `endpoint.Write(b)` (`gvisor_windows.go`): copy `b`, repair
checksums, inject with the matching network protocol number
(IPv4 = 2048, IPv6 = 34525); unknown versions are dropped without error.
The function returns `len(buf), nil` where `buf` is the copy. -/
def endpointWrite (b : List Nat) : WriteResult :=
  if IPVersion b = 4 then ⟨(writeBuf b).length, none, [(2048, writeBuf b)]⟩
  else if IPVersion b = 6 then ⟨(writeBuf b).length, none, [(34525, writeBuf b)]⟩
  else ⟨(writeBuf b).length, none, []⟩

/-- The transport-checksum verification sum of a buffer: the
ones'-complement sum of the pseudo-header (built exactly as the code
builds it — protocol, addresses, length per the IP version's
convention) followed by the entire transport segment, checksum field
included. The round-trip law says this comes out all-ones. -/
def transportResum (b : List Nat) : Nat :=
  if IPVersion b = 4 then
    if ipv4Protocol b = 17 then
      chks (pseudoHeaderChecksum 17 (ipv4DestinationAddress b)
        (ipv4SourceAddress b) (udpLength (ipv4Payload b))) (ipv4Payload b)
    else if ipv4Protocol b = 6 then
      chks (pseudoHeaderChecksum 6 (ipv4DestinationAddress b)
        (ipv4SourceAddress b) (ipv4PayloadLength b)) (ipv4Payload b)
    else 0
  else if IPVersion b = 6 then
    if ipv6NextHeader b = 17 then
      chks (pseudoHeaderChecksum 17 (ipv6DestinationAddress b)
        (ipv6SourceAddress b) (udpLength (ipv6Payload b))) (ipv6Payload b)
    else if ipv6NextHeader b = 6 then
      chks (pseudoHeaderChecksum 6 (ipv6DestinationAddress b)
        (ipv6SourceAddress b) (ipv6PayloadLength b)) (ipv6Payload b)
    else 0
  else 0

/-! ## Inbound pump loops (`Endpoint.Attach` in both variants) -/

/-- The `switch header.IPVersion(buf)` dispatch shared by both pump
loops: forward IPv4/IPv6 packets with the matching protocol number,
silently drop anything else. -/
def classifyInject (buf : List Nat) : List (Nat × List Nat) :=
  if IPVersion buf = 4 then [(2048, buf)]
  else if IPVersion buf = 6 then [(34525, buf)]
  else []

/-- One device read: either `n` bytes delivered into a buffer, or an
error. -/
inductive ReadOutcome
  | ok (raw : List Nat) (n : Nat)
  | fail
deriving DecidableEq

/-- The unix/darwin pump loop (`Endpoint.Attach`): repeatedly
`ReadOffset(buf, 4)`, slice `buf[4:4+n]`, classify and forward; stop on
the first read error. Returns the forwarded packets and the number of
reads issued against the given script of device outcomes. -/
def pumpLoopUnix : List ReadOutcome → List (Nat × List Nat) × Nat
  | [] => ([], 0)
  | ReadOutcome.fail :: _ => ([], 1)
  | ReadOutcome.ok raw n :: rest =>
    let p := pumpLoopUnix rest
    (classifyInject ((raw.drop 4).take n) ++ p.1, p.2 + 1)

/-- The windows WinTun pump loop (`Endpoint.Attach`): repeatedly
`Read(buf, 0)`, slice `buf[:nr]`, classify and forward; stop on the
first read error. -/
def pumpLoopWin : List ReadOutcome → List (Nat × List Nat) × Nat
  | [] => ([], 0)
  | ReadOutcome.fail :: _ => ([], 1)
  | ReadOutcome.ok raw n :: rest =>
    let p := pumpLoopWin rest
    (classifyInject (raw.take n) ++ p.1, p.2 + 1)

/-! ## Outbound drain (`Endpoint.WriteNotify` in both variants) -/

/-- A packet dequeued from the stack's outbound queue: network header,
transport header, and the (possibly segmented) payload. -/
structure OutPacket where
  networkHeader : List Nat
  transportHeader : List Nat
  payloadSegments : List (List Nat)
deriving DecidableEq

/-- Models `pkt.Data().ToBuffer().Flatten()` / `info.Pkt.Data.ToView()`:
flatten the segmented payload into one contiguous byte sequence. -/
def flattenSegs : List (List Nat) → List Nat
  | [] => []
  | s :: rest => s ++ flattenSegs rest

/-- Observable outcome of one `WriteNotify` invocation: a device write
of a buffer at a framing offset, a no-op return, or a nil-pointer
dereference of the dequeued packet. -/
inductive NotifyOutcome
  | wrote (buf : List Nat) (off : Nat)
  | noop
  | nilDeref
deriving DecidableEq

/-- The buffer built by the unix `WriteNotify`:
`append(e.buf[:4], NetworkHeader...)`, then the transport header, then
the flattened payload. The 4 prefix bytes of the scratch buffer are left
as-is. -/
def unixNotifyBuf (scratch : List Nat) (pkt : OutPacket) : List Nat :=
  ((scratch.take 4 ++ pkt.networkHeader) ++ pkt.transportHeader)
    ++ flattenSegs pkt.payloadSegments

/-- The buffer built by the windows `WriteNotify`:
`append(e.buff[:0], NetworkHeader...)` — no frame prefix. -/
def winNotifyBuf (pkt : OutPacket) : List Nat :=
  (pkt.networkHeader ++ pkt.transportHeader) ++ flattenSegs pkt.payloadSegments

/-- The unix `Endpoint.WriteNotify`: `info, ok := e.Endpoint.Read()`
guards the empty queue (`if !ok { return }`); otherwise the
reconstructed buffer is written with `WriteOffset(buf, 4)`. -/
def unixWriteNotify (q : Option OutPacket) (scratch : List Nat) : NotifyOutcome :=
  match q with
  | none => NotifyOutcome.noop
  | some pkt => NotifyOutcome.wrote (unixNotifyBuf scratch pkt) 4

/-- The windows `Endpoint.WriteNotify`: `pkt := e.Endpoint.Read()` is
used without a nil check. `channel.Endpoint.Read` returns `nil` when the
outbound queue is empty, so the subsequent `pkt.NetworkHeader()`
dereferences a nil `*stack.PacketBuffer`, modelled as `nilDeref`;
otherwise the buffer is written with `e.Writer.Write(buf)` (offset 0). -/
def winWriteNotify (q : Option OutPacket) : NotifyOutcome :=
  match q with
  | none => NotifyOutcome.nilDeref
  | some pkt => NotifyOutcome.wrote (winNotifyBuf pkt) 0

/-! ## Two concurrent drains: step relation for the scratch-buffer lock
(`WriteNotify` body: `mu.Lock(); fill buff; Write; mu.Unlock()`) -/

/-- Program counter of one drain invocation: not yet locked; holding the
lock having copied `k` bytes of its packet into the scratch buffer;
having issued the device write; done (lock released). -/
inductive DrainPC
  | idle
  | filling (k : Nat)
  | wroteBuf
  | finished
deriving DecidableEq

/-- Whether a drain is inside the buffer-fill-and-write critical
section. -/
def DrainPC.inCritical : DrainPC → Bool
  | DrainPC.filling _ => true
  | DrainPC.wroteBuf => true
  | _ => false

/-- Shared state of two concurrent `WriteNotify` invocations on one
endpoint: the mutex owner, both program counters, the shared scratch
buffer, and the log of completed device writes. -/
structure DrainState where
  mutex : Option (Fin 2)
  pc : Fin 2 → DrainPC
  buff : List Nat
  writes : List (List Nat)

/-- Initial state: lock free, both invocations at entry, nothing
written. -/
def drainInit : DrainState :=
  { mutex := none, pc := fun _ => DrainPC.idle, buff := [], writes := [] }

/-- Interleaving semantics of the two drains, each executing
`e.mu.Lock()`, then byte-by-byte `append` of its packet `pkts t` into
the truncated scratch buffer, then the device write of the scratch
buffer, then `e.mu.Unlock()`. Only `lock` is guarded by the mutex; the
other steps follow each thread's program order. -/
inductive DrainStep (pkts : Fin 2 → List Nat) : DrainState → DrainState → Prop
  | lock (t : Fin 2) (s : DrainState)
      (h1 : s.mutex = none) (h2 : s.pc t = DrainPC.idle) :
      DrainStep pkts s
        { s with mutex := some t,
                 pc := Function.update s.pc t (DrainPC.filling 0),
                 buff := [] }
  | fill (t : Fin 2) (s : DrainState) (k : Nat)
      (h : s.pc t = DrainPC.filling k) (hk : k < (pkts t).length) :
      DrainStep pkts s
        { s with pc := Function.update s.pc t (DrainPC.filling (k + 1)),
                 buff := s.buff ++ [(pkts t).getD k 0] }
  | write (t : Fin 2) (s : DrainState)
      (h : s.pc t = DrainPC.filling (pkts t).length) :
      DrainStep pkts s
        { s with pc := Function.update s.pc t DrainPC.wroteBuf,
                 writes := s.writes ++ [s.buff] }
  | unlock (t : Fin 2) (s : DrainState)
      (h : s.pc t = DrainPC.wroteBuf) :
      DrainStep pkts s
        { s with mutex := none,
                 pc := Function.update s.pc t DrainPC.finished }

/-- Inductive invariant of the two-drain system: a filling or writing
thread owns the mutex and the scratch buffer holds exactly its bytes so
far; every completed write is one thread's whole packet. -/
def DrainInv (pkts : Fin 2 → List Nat) (s : DrainState) : Prop :=
  (∀ t k, s.pc t = DrainPC.filling k →
    s.mutex = some t ∧ k ≤ (pkts t).length ∧ s.buff = (pkts t).take k) ∧
  (∀ t, s.pc t = DrainPC.wroteBuf →
    s.mutex = some t ∧ s.buff = pkts t) ∧
  (∀ w ∈ s.writes, w = pkts 0 ∨ w = pkts 1)

/-! ## Capability dispatch at construction/attach time -/

/-- The dynamic capabilities of a device, as probed by the interface
assertions in `NewEndpoint`/`Attach`: windows `Reader`, windows
`io.WriterTo` (WinDivert push producer), unix `ReaderOffset`, unix
`WriterOffset`. -/
structure DeviceModel where
  hasReader : Bool
  hasWriterTo : Bool
  hasReaderOffset : Bool
  hasWriterOffset : Bool
deriving DecidableEq

/-- Outcome of an attach: a pump loop goroutine was started, the
push-producer path was wired (no pump loop), or `log.Panic` fired. -/
inductive AttachResult
  | pumpStarted
  | pushProducer
  | fatal
deriving DecidableEq

/-- Windows `Endpoint.Attach`: if the device is a `Reader`, start the
WinTun pump loop; otherwise, if it is an `io.WriterTo`, wire the
WinDivert push producer; otherwise `log.Panic`. -/
def windowsAttach (d : DeviceModel) : AttachResult :=
  if d.hasReader then AttachResult.pumpStarted
  else if d.hasWriterTo then AttachResult.pushProducer
  else AttachResult.fatal

/-- Unix `NewEndpoint`: the bare type assertion `dev.(WriterOffset)`
panics unless the device has the offset-write capability. `true` means
construction succeeded. -/
def unixNewEndpointOk (d : DeviceModel) : Bool := d.hasWriterOffset

/-- Unix `Endpoint.Attach`: the bare type assertion `e.dev.(ReaderOffset)`
panics unless the device has the offset-read capability; otherwise the
pump loop is started. -/
def unixAttach (d : DeviceModel) : AttachResult :=
  if d.hasReaderOffset then AttachResult.pumpStarted else AttachResult.fatal

/-! ## Validity predicates and concrete witness inputs -/

/-- All entries are bytes. -/
def BytesValid (b : List Nat) : Prop := ∀ x ∈ b, x < 256

instance (b : List Nat) : Decidable (BytesValid b) :=
  List.decidableBAll _ b

/-- A syntactically valid IPv4 packet as far as the header-checksum
recomputation is concerned. -/
def ValidIPv4Header (b : List Nat) : Prop :=
  BytesValid b ∧ IPVersion b = 4 ∧ 20 ≤ ipv4HeaderLength b ∧
    ipv4HeaderLength b ≤ b.length

instance (b : List Nat) : Decidable (ValidIPv4Header b) := by
  unfold ValidIPv4Header
  exact instDecidableAnd

/-- A valid TCP or UDP segment embedded in a valid IPv4 or IPv6 packet:
the bounds under which every slice taken by `endpoint.Write` is in
range. -/
def ValidTransport (b : List Nat) : Prop :=
  BytesValid b ∧
  ((IPVersion b = 4 ∧ 20 ≤ ipv4HeaderLength b ∧
      ipv4TotalLength b ≤ b.length ∧
      ((ipv4Protocol b = 17 ∧ ipv4HeaderLength b + 8 ≤ ipv4TotalLength b) ∨
       (ipv4Protocol b = 6 ∧ 20 ≤ tcpDataOffset (ipv4Payload b) ∧
         ipv4HeaderLength b + tcpDataOffset (ipv4Payload b) ≤ ipv4TotalLength b)))
   ∨
   (IPVersion b = 6 ∧ 40 + ipv6PayloadLength b ≤ b.length ∧
      ((ipv6NextHeader b = 17 ∧ 8 ≤ ipv6PayloadLength b) ∨
       (ipv6NextHeader b = 6 ∧ 20 ≤ tcpDataOffset (ipv6Payload b) ∧
         tcpDataOffset (ipv6Payload b) ≤ ipv6PayloadLength b))))

instance (b : List Nat) : Decidable (ValidTransport b) := by
  unfold ValidTransport
  exact instDecidableAnd

/-- Witness packet: 20-byte IPv4 header, protocol UDP, total length 32. -/
def pktUDP4 : List Nat :=
  [69, 0, 0, 32, 0, 0, 0, 0, 64, 17, 0, 0, 10, 0, 0, 1, 10, 0, 0, 2,
   0, 53, 0, 53, 0, 12, 0, 0, 1, 2, 3, 4]

/-- Witness inbound buffer for the offset-read pump: 4 prefix bytes plus
a 20-byte IPv4 header. -/
def raw24 : List Nat :=
  [0, 0, 0, 2] ++
  [69, 0, 0, 20, 0, 0, 0, 0, 64, 1, 0, 0, 10, 0, 0, 1, 10, 0, 0, 2]

/-- Witness packets for the two concurrent drains. -/
def drainPkts : Fin 2 → List Nat := fun t => if t = 0 then [1, 2] else [3]

/-- Witness device with no capabilities at all. -/
def devNone : DeviceModel :=
  { hasReader := false, hasWriterTo := false,
    hasReaderOffset := false, hasWriterOffset := false }

/-- Witness device with the windows push-producer capability only. -/
def devPush : DeviceModel :=
  { hasReader := false, hasWriterTo := true,
    hasReaderOffset := false, hasWriterOffset := false }

/-! # Theorems -/

/-! ## Basic list helpers -/

theorem length_set16 (b : List Nat) (i v : Nat) : (set16 b i v).length = b.length := by
  simp [set16]

theorem flattenSegs_eq_flatten : ∀ ll : List (List Nat), flattenSegs ll = ll.flatten
  | [] => rfl
  | s :: rest => by rw [flattenSegs, List.flatten_cons, flattenSegs_eq_flatten rest]

theorem recomputeIPv4Checksum_length (b : List Nat) :
    (recomputeIPv4Checksum b).length = b.length := by
  simp [recomputeIPv4Checksum, ipv4SetChecksum, length_set16]

theorem recomputeUDPv4_length (b : List Nat) :
    (recomputeUDPv4 b).length = b.length := by
  simp [recomputeUDPv4, length_set16]

theorem recomputeTCPv4_length (b : List Nat) :
    (recomputeTCPv4 b).length = b.length := by
  simp [recomputeTCPv4, length_set16]

theorem recomputeUDPv6_length (b : List Nat) :
    (recomputeUDPv6 b).length = b.length := by
  simp [recomputeUDPv6, length_set16]

theorem recomputeTCPv6_length (b : List Nat) :
    (recomputeTCPv6 b).length = b.length := by
  simp [recomputeTCPv6, length_set16]

theorem writeBuf_length (b : List Nat) : (writeBuf b).length = b.length := by
  unfold writeBuf
  split
  · split
    · rw [recomputeUDPv4_length, recomputeIPv4Checksum_length]
    · split
      · rw [recomputeTCPv4_length, recomputeIPv4Checksum_length]
      · exact recomputeIPv4Checksum_length b
  · split
    · split
      · exact recomputeUDPv6_length b
      · split
        · exact recomputeTCPv6_length b
        · rfl
    · rfl

/-! ## Ones'-complement arithmetic -/

theorem onesAdd_le (a b : Nat) (ha : a ≤ 65535) (hb : b ≤ 65535) :
    onesAdd a b ≤ 65535 := by
  unfold onesAdd
  split <;> omega

theorem onesAdd_mod (a b : Nat) : onesAdd a b % 65535 = (a + b) % 65535 := by
  unfold onesAdd
  split
  · rfl
  · omega

theorem onesAdd_le_add (a b : Nat) : onesAdd a b ≤ a + b := by
  unfold onesAdd
  split <;> omega

theorem foldl_onesAdd_le (ws : List Nat) : ∀ acc, acc ≤ 65535 →
    (∀ w ∈ ws, w ≤ 65535) → ws.foldl onesAdd acc ≤ 65535 := by
  induction ws with
  | nil => intro acc ha _; simpa using ha
  | cons w t ih =>
    intro acc ha hw
    rw [List.foldl_cons]
    exact ih (onesAdd acc w) (onesAdd_le acc w ha (hw w (by simp)))
      (fun x hx => hw x (by simp [hx]))

theorem foldl_onesAdd_mod (ws : List Nat) : ∀ acc,
    ws.foldl onesAdd acc % 65535 = (acc + ws.sum) % 65535 := by
  induction ws with
  | nil => intro acc; simp
  | cons w t ih =>
    intro acc
    rw [List.foldl_cons, ih, List.sum_cons]
    have := onesAdd_mod acc w
    omega

theorem foldl_onesAdd_le_sum (ws : List Nat) : ∀ acc,
    ws.foldl onesAdd acc ≤ acc + ws.sum := by
  induction ws with
  | nil => intro acc; simp
  | cons w t ih =>
    intro acc
    rw [List.foldl_cons, List.sum_cons]
    have h1 := ih (onesAdd acc w)
    have h2 := onesAdd_le_add acc w
    omega

theorem foldl_onesAdd_eq_zero (ws : List Nat) : ∀ acc,
    ws.foldl onesAdd acc = 0 → acc = 0 ∧ ∀ w ∈ ws, w = 0 := by
  induction ws with
  | nil =>
    intro acc h
    exact ⟨h, by simp⟩
  | cons w t ih =>
    intro acc h
    rw [List.foldl_cons] at h
    obtain ⟨h0, hall⟩ := ih (onesAdd acc w) h
    have haw : acc = 0 ∧ w = 0 := by
      unfold onesAdd at h0
      split at h0 <;> omega
    refine ⟨haw.1, ?_⟩
    intro x hx
    rcases List.mem_cons.mp hx with rfl | hx
    · exact haw.2
    · exact hall x hx

/-- The Internet checksum round-trip law, word-list form: if `ws'` sums
(as naturals) to the sum of `ws` plus the complement of the
ones'-complement sum of `ws`, then the ones'-complement sum of `ws'` is
the all-ones value. -/
theorem roundtrip_core (ws ws' : List Nat)
    (hw : ∀ w ∈ ws, w ≤ 65535) (hw' : ∀ w ∈ ws', w ≤ 65535)
    (hsum : ws'.sum = ws.sum + (65535 - ws.foldl onesAdd 0)) :
    ws'.foldl onesAdd 0 = 65535 := by
  have hS_le : ws.foldl onesAdd 0 ≤ 65535 :=
    foldl_onesAdd_le ws 0 (by omega) hw
  have hS_sum : ws.foldl onesAdd 0 ≤ ws.sum := by
    have := foldl_onesAdd_le_sum ws 0
    omega
  have hS_mod : ws.foldl onesAdd 0 % 65535 = ws.sum % 65535 := by
    have := foldl_onesAdd_mod ws 0
    omega
  have hT_le : ws'.foldl onesAdd 0 ≤ 65535 :=
    foldl_onesAdd_le ws' 0 (by omega) hw'
  have hT_mod : ws'.foldl onesAdd 0 % 65535 = ws'.sum % 65535 := by
    have := foldl_onesAdd_mod ws' 0
    omega
  by_cases hz : ws'.foldl onesAdd 0 = 0
  · exfalso
    have hzero := (foldl_onesAdd_eq_zero ws' 0 hz).2
    have hs0 : ws'.sum = 0 := List.sum_eq_zero hzero
    omega
  · omega

/-! ## Word-splitting lemmas -/

theorem words16_append : ∀ a : List Nat, a.length % 2 = 0 → ∀ b,
    words16 (a ++ b) = words16 a ++ words16 b
  | [], _, _ => rfl
  | [_], h, _ => by simp at h
  | x :: y :: t, h, b => by
    have ht : t.length % 2 = 0 := by
      simp only [List.length_cons] at h
      omega
    simp only [List.cons_append, words16, List.append_eq,
      words16_append t ht b]

theorem words16_le : ∀ l : List Nat, (∀ x ∈ l, x < 256) →
    ∀ w ∈ words16 l, w ≤ 65535
  | [], _, w, hw => by simp [words16] at hw
  | [a], h, w, hw => by
    simp only [words16, List.mem_singleton] at hw
    have := h a (by simp)
    omega
  | a :: b :: t, h, w, hw => by
    simp only [words16, List.mem_cons] at hw
    rcases hw with rfl | hw
    · have ha := h a (by simp)
      have hb := h b (by simp)
      omega
    · exact words16_le t (fun x hx => h x (by simp [hx])) w hw

theorem words16_length : ∀ l : List Nat, (words16 l).length = (l.length + 1) / 2
  | [] => rfl
  | [_] => by simp [words16]
  | _ :: _ :: t => by
    simp only [words16, List.length_cons, words16_length t]
    omega

theorem words16_set16 : ∀ (l : List Nat) (k v : Nat),
    2 * k + 1 < l.length → v ≤ 65535 →
    words16 (set16 l (2 * k) v) = (words16 l).set k v
  | [], k, v, h, _ => by simp at h
  | [_], k, v, h, _ => by simp at h
  | a :: b :: t, 0, v, h, hv => by
    have hv' : v / 256 * 256 + v % 256 = v := by omega
    simp only [set16, Nat.mul_zero, Nat.zero_add, List.set_cons_zero,
      List.set_cons_succ, words16, hv']
  | a :: b :: t, k + 1, v, h, hv => by
    have ht : 2 * k + 1 < t.length := by
      simp only [List.length_cons] at h
      omega
    have e1 : 2 * (k + 1) = 2 * k + 1 + 1 := by omega
    have e2 : 2 * (k + 1) + 1 = 2 * k + 1 + 1 + 1 := by omega
    have ih := words16_set16 t k v ht hv
    unfold set16 at ih
    simp only [set16, e1, e2, List.set_cons_succ, words16]
    congr 1

/-! ## Byte-set and slice helpers -/

theorem sum_set_set : ∀ (l : List Nat) (k c : Nat), k < l.length →
    (l.set k c).sum = (l.set k 0).sum + c
  | [], k, c, h => by simp at h
  | a :: t, 0, c, h => by
    simp only [List.set_cons_zero, List.sum_cons]
    omega
  | a :: t, k + 1, c, h => by
    simp only [List.set_cons_succ, List.sum_cons,
      sum_set_set t k c (by simpa using h)]
    omega

theorem set16_take (l : List Nat) (n i v : Nat) :
    (set16 l i v).take n = set16 (l.take n) i v := by
  unfold set16
  rw [List.set_take, List.set_take]

theorem set16_drop (l : List Nat) (m i v : Nat) :
    (set16 l (m + i) v).drop m = set16 (l.drop m) i v := by
  unfold set16
  have e : m + i + 1 = m + (i + 1) := by omega
  rw [e, ← List.set_drop, ← List.set_drop]

theorem set16_drop_lt (l : List Nat) (m i v : Nat) (h : i + 1 < m) :
    (set16 l i v).drop m = l.drop m := by
  unfold set16
  rw [List.drop_set_of_lt _ _ (by omega : i + 1 < m),
    List.drop_set_of_lt _ _ (by omega : i < m)]

theorem set16_oob (l : List Nat) (i v : Nat) (h : l.length ≤ i) :
    set16 l i v = l := by
  unfold set16
  rw [List.set_eq_of_length_le h, List.set_eq_of_length_le (by omega)]

theorem set16_set16 (l : List Nat) (i v w : Nat) :
    set16 (set16 l i v) i w = set16 l i w := by
  unfold set16
  rw [List.set_comm _ _ _ (by omega : i + 1 ≠ i), List.set_set, List.set_set]

theorem set16_bytes_lt (l : List Nat) (i v : Nat)
    (hb : ∀ x ∈ l, x < 256) (hv : v ≤ 65535) :
    ∀ x ∈ set16 l i v, x < 256 := by
  intro x hx
  unfold set16 at hx
  rcases List.mem_or_eq_of_mem_set hx with hx | rfl
  · rcases List.mem_or_eq_of_mem_set hx with hx | rfl
    · exact hb x hx
    · omega
  · omega

theorem slice_set16_inside (l : List Nat) (m n i v : Nat) :
    ((set16 l (m + i) v).drop m).take n = set16 ((l.drop m).take n) i v := by
  rw [set16_drop, set16_take]

theorem slice_set16_before (l : List Nat) (m n i v : Nat) (h : i + 1 < m) :
    ((set16 l i v).drop m).take n = (l.drop m).take n := by
  rw [set16_drop_lt l m i v h]

theorem slice_set16_after (l : List Nat) (m n i v : Nat) (h : m + n ≤ i) :
    ((set16 l i v).drop m).take n = (l.drop m).take n := by
  have hlen : ((l.drop m).take n).length ≤ i - m := by
    simp only [List.length_take, List.length_drop]
    omega
  have e : i = m + (i - m) := by omega
  rw [e, set16_drop, set16_take, set16_oob _ _ _ hlen]

theorem byteAt_set_ne (l : List Nat) (i v j : Nat) (h : i ≠ j) :
    byteAt (l.set i v) j = byteAt l j := by
  unfold byteAt
  rw [List.getD_eq_getElem?_getD, List.getD_eq_getElem?_getD,
    List.getElem?_set_ne h]

theorem byteAt_set16_ne (l : List Nat) (i v j : Nat)
    (h1 : j ≠ i) (h2 : j ≠ i + 1) :
    byteAt (set16 l i v) j = byteAt l j := by
  unfold set16
  rw [byteAt_set_ne _ _ _ _ (Ne.symm h2), byteAt_set_ne _ _ _ _ (Ne.symm h1)]

theorem get16_set16_ne (l : List Nat) (i v j : Nat)
    (h : j + 1 < i ∨ i + 1 < j) :
    get16 (set16 l i v) j = get16 l j := by
  unfold get16
  rw [byteAt_set16_ne _ _ _ _ (by omega) (by omega),
    byteAt_set16_ne _ _ _ _ (by omega) (by omega)]

theorem IPVersion_set16 (l : List Nat) (i v : Nat) (h : 0 < i) :
    IPVersion (set16 l i v) = IPVersion l := by
  unfold IPVersion
  rw [length_set16, byteAt_set16_ne _ _ _ _ (by omega) (by omega)]

/-! ## Checksum concatenation -/

theorem chks_append (init : Nat) (a b : List Nat) (h : a.length % 2 = 0) :
    chks init (a ++ b) = chks (chks init a) b := by
  unfold chks
  rw [words16_append a h b, List.foldl_append]

theorem pseudoHeaderChecksum_eq (p : Nat) (src dst : List Nat) (len : Nat)
    (hs : src.length % 2 = 0) (hd : dst.length % 2 = 0) :
    pseudoHeaderChecksum p src dst len
      = chks 0 (src ++ (dst ++ ([len / 256, len % 256] ++ [0, p]))) := by
  unfold pseudoHeaderChecksum
  rw [chks_append 0 src _ hs, chks_append _ dst _ hd,
    chks_append _ [len / 256, len % 256] _ (by simp)]

/-- The generic transport-checksum recomputation law: for a pseudo-header
byte sequence and a transport segment whose checksum field occupies
bytes `2k, 2k+1` of a header of even length `hl`, the code's sequence
(sum pseudo-header, then payload, then the zeroed header; write the
complement into the field) makes the ones'-complement sum of
pseudo-header plus the whole finished segment come out all-ones. -/
theorem transport_roundtrip_generic
    (pseudo seg : List Nat) (hl k : Nat)
    (hhl2 : hl % 2 = 0)
    (hk : 2 * k + 1 < hl) (hhl : hl ≤ seg.length)
    (hb1 : ∀ x ∈ pseudo, x < 256) (hb2 : ∀ x ∈ seg, x < 256) :
    chks (chks 0 pseudo)
      (set16 (set16 seg (2 * k) 0) (2 * k)
        (65535 - chks (chks (chks 0 pseudo) (seg.drop hl))
          ((set16 seg (2 * k) 0).take hl)))
      = 65535 := by
  have htl : (seg.take hl).length = hl := List.length_take_of_le hhl
  have hWlen : (words16 (seg.take hl)).length = (hl + 1) / 2 := by
    rw [words16_length, htl]
  have hkW : k < (words16 (seg.take hl)).length := by omega
  have hktl : 2 * k + 1 < (seg.take hl).length := by omega
  have hbtake : ∀ x ∈ seg.take hl, x < 256 :=
    fun x hx => hb2 x (List.take_subset _ _ hx)
  have hbdrop : ∀ x ∈ seg.drop hl, x < 256 :=
    fun x hx => hb2 x (List.drop_subset _ _ hx)
  have hz1 : (set16 seg (2 * k) 0).take hl = set16 (seg.take hl) (2 * k) 0 :=
    set16_take seg hl (2 * k) 0
  have hz2 : words16 (set16 (seg.take hl) (2 * k) 0)
      = (words16 (seg.take hl)).set k 0 :=
    words16_set16 (seg.take hl) k 0 hktl (by omega)
  have hS : chks (chks (chks 0 pseudo) (seg.drop hl))
        ((set16 seg (2 * k) 0).take hl)
      = (words16 pseudo ++ (words16 (seg.drop hl)
          ++ (words16 (seg.take hl)).set k 0)).foldl onesAdd 0 := by
    unfold chks
    rw [hz1, hz2, List.foldl_append, List.foldl_append]
  rw [hS]
  set S := (words16 pseudo ++ (words16 (seg.drop hl)
      ++ (words16 (seg.take hl)).set k 0)).foldl onesAdd 0 with hSdef
  have hwP : ∀ w ∈ words16 pseudo, w ≤ 65535 := words16_le pseudo hb1
  have hwD : ∀ w ∈ words16 (seg.drop hl), w ≤ 65535 := words16_le _ hbdrop
  have hwW0 : ∀ w ∈ (words16 (seg.take hl)).set k 0, w ≤ 65535 := by
    rw [← hz2]
    exact words16_le _ (set16_bytes_lt _ _ _ hbtake (by omega))
  have hws : ∀ w ∈ words16 pseudo ++ (words16 (seg.drop hl)
      ++ (words16 (seg.take hl)).set k 0), w ≤ 65535 := by
    intro w hw
    rcases List.mem_append.mp hw with hw | hw
    · exact hwP w hw
    rcases List.mem_append.mp hw with hw | hw
    · exact hwD w hw
    · exact hwW0 w hw
  have hS65 : S ≤ 65535 := by
    rw [hSdef]
    exact foldl_onesAdd_le _ 0 (by omega) hws
  rw [set16_set16]
  have hdropf : (set16 seg (2 * k) (65535 - S)).drop hl = seg.drop hl :=
    set16_drop_lt seg hl (2 * k) (65535 - S) (by omega)
  have htakef : (set16 seg (2 * k) (65535 - S)).take hl
      = set16 (seg.take hl) (2 * k) (65535 - S) :=
    set16_take seg hl (2 * k) (65535 - S)
  have hsplit : set16 seg (2 * k) (65535 - S)
      = set16 (seg.take hl) (2 * k) (65535 - S) ++ seg.drop hl := by
    rw [← htakef, ← hdropf, List.take_append_drop]
  have hTw : words16 (set16 seg (2 * k) (65535 - S))
      = (words16 (seg.take hl)).set k (65535 - S)
        ++ words16 (seg.drop hl) := by
    rw [hsplit, words16_append _ (by rw [length_set16, htl]; exact hhl2) _,
      words16_set16 (seg.take hl) k (65535 - S) hktl (by omega)]
  have hwWC : ∀ w ∈ (words16 (seg.take hl)).set k (65535 - S), w ≤ 65535 := by
    rw [← words16_set16 (seg.take hl) k (65535 - S) hktl (by omega)]
    exact words16_le _ (set16_bytes_lt _ _ _ hbtake (by omega))
  have hws' : ∀ w ∈ words16 pseudo ++ ((words16 (seg.take hl)).set k (65535 - S)
      ++ words16 (seg.drop hl)), w ≤ 65535 := by
    intro w hw
    rcases List.mem_append.mp hw with hw | hw
    · exact hwP w hw
    rcases List.mem_append.mp hw with hw | hw
    · exact hwWC w hw
    · exact hwD w hw
  have hWCsum : ((words16 (seg.take hl)).set k (65535 - S)).sum
      = ((words16 (seg.take hl)).set k 0).sum + (65535 - S) :=
    sum_set_set _ k _ hkW
  have hsum : (words16 pseudo ++ ((words16 (seg.take hl)).set k (65535 - S)
        ++ words16 (seg.drop hl))).sum
      = (words16 pseudo ++ (words16 (seg.drop hl)
          ++ (words16 (seg.take hl)).set k 0)).sum
        + (65535 - (words16 pseudo ++ (words16 (seg.drop hl)
            ++ (words16 (seg.take hl)).set k 0)).foldl onesAdd 0) := by
    rw [← hSdef]
    simp only [List.sum_append]
    omega
  have hcore := roundtrip_core
    (words16 pseudo ++ (words16 (seg.drop hl)
      ++ (words16 (seg.take hl)).set k 0))
    (words16 pseudo ++ ((words16 (seg.take hl)).set k (65535 - S)
      ++ words16 (seg.drop hl)))
    hws hws' hsum
  rw [List.foldl_append, List.foldl_append] at hcore
  unfold chks
  rw [hTw, List.foldl_append]
  exact hcore

/-! ## Accessor-stability helpers -/

theorem chks_nil (init : Nat) : chks init [] = init := rfl

theorem ipv4HeaderLength_set16 (l : List Nat) (i v : Nat) (h : 0 < i) :
    ipv4HeaderLength (set16 l i v) = ipv4HeaderLength l := by
  unfold ipv4HeaderLength
  rw [byteAt_set16_ne _ _ _ _ (by omega) (by omega)]

theorem take_set16_oob (l : List Nat) (n i v : Nat) (h : n ≤ i) :
    (set16 l i v).take n = l.take n := by
  rw [set16_take, set16_oob]
  exact le_trans (List.length_take_le _ _) h

/-! ## C2: the recomputed IPv4 header checksum verifies -/

/-- C2: for every valid IPv4 packet handed to the push-producer `Write`,
the header checksum is recomputed (zero the field, ones'-complement the
ones'-complement sum of the header, write it back) so that summing the
resulting header again, checksum field included, yields the all-ones
value `0xffff` (the ones'-complement representation of zero). -/
theorem write_ipv4_header_checksum (b : List Nat) (hval : ValidIPv4Header b) :
    chks 0 ((writeBuf b).take (ipv4HeaderLength (writeBuf b))) = 65535 := by
  obtain ⟨hB, hv, hhl20, hhlen⟩ := hval
  have hhl2 : ipv4HeaderLength b % 2 = 0 := by
    unfold ipv4HeaderLength
    omega
  have htl : (b.take (ipv4HeaderLength b)).length = ipv4HeaderLength b :=
    List.length_take_of_le hhlen
  have hHL0 : ipv4HeaderLength (set16 b 10 0) = ipv4HeaderLength b :=
    ipv4HeaderLength_set16 b 10 0 (by omega)
  have hB1 : recomputeIPv4Checksum b
      = set16 (set16 b 10 0) 10
          (65535 - chks 0 (set16 (b.take (ipv4HeaderLength b)) 10 0)) := by
    unfold recomputeIPv4Checksum ipv4SetChecksum ipv4CalculateChecksum
    rw [hHL0, set16_take]
  have hHL1 : ipv4HeaderLength (recomputeIPv4Checksum b)
      = ipv4HeaderLength b := by
    rw [hB1, ipv4HeaderLength_set16 _ 10 _ (by omega),
      ipv4HeaderLength_set16 _ 10 _ (by omega)]
  have hTake1 : (recomputeIPv4Checksum b).take (ipv4HeaderLength b)
      = set16 (set16 (b.take (ipv4HeaderLength b)) 10 0) 10
          (65535 - chks 0 (set16 (b.take (ipv4HeaderLength b)) 10 0)) := by
    rw [hB1, set16_take, set16_take]
  have hgen := transport_roundtrip_generic [] (b.take (ipv4HeaderLength b))
    (ipv4HeaderLength b) 5 hhl2 (by omega) (le_of_eq htl.symm)
    (by simp) (fun x hx => hB x (List.take_subset _ _ hx))
  have h25 : (2 : Nat) * 5 = 10 := by norm_num
  rw [h25] at hgen
  have hdrop : (b.take (ipv4HeaderLength b)).drop (ipv4HeaderLength b) = [] :=
    List.drop_eq_nil_of_le (le_of_eq htl)
  rw [hdrop] at hgen
  have htk : (set16 (b.take (ipv4HeaderLength b)) 10 0).take (ipv4HeaderLength b)
      = set16 (b.take (ipv4HeaderLength b)) 10 0 :=
    List.take_of_length_le (by rw [length_set16, htl])
  rw [htk] at hgen
  simp only [chks_nil] at hgen
  unfold writeBuf
  rw [if_pos hv]
  by_cases hp17 : ipv4Protocol (recomputeIPv4Checksum b) = 17
  · rw [if_pos hp17]
    unfold recomputeUDPv4
    rw [hHL1]
    rw [ipv4HeaderLength_set16 _ (ipv4HeaderLength b + 6) _ (by omega),
      ipv4HeaderLength_set16 _ (ipv4HeaderLength b + 6) _ (by omega), hHL1]
    rw [take_set16_oob _ (ipv4HeaderLength b) (ipv4HeaderLength b + 6) _
        (by omega),
      take_set16_oob _ (ipv4HeaderLength b) (ipv4HeaderLength b + 6) _
        (by omega),
      hTake1]
    exact hgen
  · rw [if_neg hp17]
    by_cases hp6 : ipv4Protocol (recomputeIPv4Checksum b) = 6
    · rw [if_pos hp6]
      unfold recomputeTCPv4
      rw [hHL1]
      rw [ipv4HeaderLength_set16 _ (ipv4HeaderLength b + 16) _ (by omega),
        ipv4HeaderLength_set16 _ (ipv4HeaderLength b + 16) _ (by omega), hHL1]
      rw [take_set16_oob _ (ipv4HeaderLength b) (ipv4HeaderLength b + 16) _
          (by omega),
        take_set16_oob _ (ipv4HeaderLength b) (ipv4HeaderLength b + 16) _
          (by omega),
        hTake1]
      exact hgen
    · rw [if_neg hp6, hHL1, hTake1]
      exact hgen

theorem write_ipv4_header_checksum_witness :
    ValidIPv4Header pktUDP4 ∧
      chks 0 ((writeBuf pktUDP4).take (ipv4HeaderLength (writeBuf pktUDP4)))
        = 65535 :=
  ⟨by decide, write_ipv4_header_checksum pktUDP4 (by decide)⟩

/-! ## C1: the recomputed transport checksum verifies -/

theorem byteAt_lt (l : List Nat) (i : Nat) (hb : ∀ x ∈ l, x < 256) :
    byteAt l i < 256 := by
  unfold byteAt
  rcases Nat.lt_or_ge i l.length with h | h
  · rw [List.getD_eq_getElem l 0 h]
    exact hb _ (List.getElem_mem h)
  · rw [List.getD_eq_default l 0 h]
    omega

theorem get16_le (l : List Nat) (i : Nat) (hb : ∀ x ∈ l, x < 256) :
    get16 l i ≤ 65535 := by
  unfold get16
  have h1 := byteAt_lt l i hb
  have h2 := byteAt_lt l (i + 1) hb
  omega

theorem ipv4Payload_congr (x : List Nat) (hl tl : Nat)
    (h1 : ipv4HeaderLength x = hl) (h2 : ipv4TotalLength x = tl) :
    ipv4Payload x = (x.drop hl).take (tl - hl) := by
  unfold ipv4Payload
  rw [h1, h2]

theorem ipv4_udp_roundtrip (b : List Nat) (hB : BytesValid b)
    (hv : IPVersion b = 4) (hhl20 : 20 ≤ ipv4HeaderLength b)
    (htlb : ipv4TotalLength b ≤ b.length)
    (hp : ipv4Protocol b = 17)
    (h8 : ipv4HeaderLength b + 8 ≤ ipv4TotalLength b) :
    transportResum (writeBuf b) = 65535 := by
  -- facts about the IPv4-header-checksum stage
  have hB1 : recomputeIPv4Checksum b
      = set16 (set16 b 10 0) 10
          (65535 - ipv4CalculateChecksum (set16 b 10 0)) := rfl
  have hv1 : IPVersion (recomputeIPv4Checksum b) = 4 := by
    rw [hB1, IPVersion_set16 _ 10 _ (by omega),
      IPVersion_set16 _ 10 _ (by omega), hv]
  have hHL1 : ipv4HeaderLength (recomputeIPv4Checksum b)
      = ipv4HeaderLength b := by
    rw [hB1, ipv4HeaderLength_set16 _ 10 _ (by omega),
      ipv4HeaderLength_set16 _ 10 _ (by omega)]
  have hTL1 : ipv4TotalLength (recomputeIPv4Checksum b)
      = ipv4TotalLength b := by
    rw [hB1]
    unfold ipv4TotalLength
    rw [get16_set16_ne _ 10 _ 2 (by omega), get16_set16_ne _ 10 _ 2 (by omega)]
  have hPr1 : ipv4Protocol (recomputeIPv4Checksum b) = 17 := by
    rw [hB1]
    unfold ipv4Protocol
    rw [byteAt_set16_ne _ 10 _ 9 (by omega) (by omega),
      byteAt_set16_ne _ 10 _ 9 (by omega) (by omega)]
    exact hp
  have hsrc1 : ipv4SourceAddress (recomputeIPv4Checksum b)
      = ipv4SourceAddress b := by
    rw [hB1]
    unfold ipv4SourceAddress
    rw [slice_set16_before _ 12 4 10 _ (by omega),
      slice_set16_before _ 12 4 10 _ (by omega)]
  have hdst1 : ipv4DestinationAddress (recomputeIPv4Checksum b)
      = ipv4DestinationAddress b := by
    rw [hB1]
    unfold ipv4DestinationAddress
    rw [slice_set16_before _ 16 4 10 _ (by omega),
      slice_set16_before _ 16 4 10 _ (by omega)]
  have hPay1' : ((recomputeIPv4Checksum b).drop (ipv4HeaderLength b)).take
        (ipv4TotalLength b - ipv4HeaderLength b)
      = ipv4Payload b := by
    rw [hB1, slice_set16_before _ (ipv4HeaderLength b) _ 10 _ (by omega),
      slice_set16_before _ (ipv4HeaderLength b) _ 10 _ (by omega)]
    rfl
  have hPay1 : ipv4Payload (recomputeIPv4Checksum b) = ipv4Payload b := by
    rw [ipv4Payload_congr _ _ _ hHL1 hTL1, hPay1']
  -- the write path takes the UDP-in-IPv4 branch
  have hWB : writeBuf b = recomputeUDPv4 (recomputeIPv4Checksum b) := by
    unfold writeBuf
    rw [if_pos hv, if_pos hPr1]
  -- facts about the UDP-checksum-zeroing stage
  have hHLz : ipv4HeaderLength (set16 (recomputeIPv4Checksum b)
        (ipv4HeaderLength b + 6) 0) = ipv4HeaderLength b := by
    rw [ipv4HeaderLength_set16 _ (ipv4HeaderLength b + 6) _ (by omega)]
    exact hHL1
  have hTLz : ipv4TotalLength (set16 (recomputeIPv4Checksum b)
        (ipv4HeaderLength b + 6) 0) = ipv4TotalLength b := by
    unfold ipv4TotalLength
    rw [get16_set16_ne _ (ipv4HeaderLength b + 6) _ 2 (by omega)]
    exact hTL1
  have hPayZ : ipv4Payload (set16 (recomputeIPv4Checksum b)
        (ipv4HeaderLength b + 6) 0) = set16 (ipv4Payload b) 6 0 := by
    rw [ipv4Payload_congr _ _ _ hHLz hTLz,
      slice_set16_inside _ (ipv4HeaderLength b) _ 6 _, hPay1']
  -- the final buffer, in terms of the original packet's fields
  have hR : writeBuf b
      = set16 (set16 (recomputeIPv4Checksum b) (ipv4HeaderLength b + 6) 0)
          (ipv4HeaderLength b + 6)
          (65535 - chks (chks (pseudoHeaderChecksum 17
              (ipv4DestinationAddress b) (ipv4SourceAddress b)
              (udpLength (ipv4Payload b)))
              ((ipv4Payload b).drop 8))
            ((set16 (ipv4Payload b) 6 0).take 8)) := by
    rw [hWB]
    unfold recomputeUDPv4 udpCalculateChecksum udpPayload
    rw [hHL1, hPayZ, hPay1, hdst1, hsrc1]
  -- abbreviate the written checksum value
  set CV := 65535 - chks (chks (pseudoHeaderChecksum 17
      (ipv4DestinationAddress b) (ipv4SourceAddress b)
      (udpLength (ipv4Payload b)))
      ((ipv4Payload b).drop 8))
    ((set16 (ipv4Payload b) 6 0).take 8) with hCV
  -- accessor stability on the final buffer
  have hvR : IPVersion (writeBuf b) = 4 := by
    rw [hR, IPVersion_set16 _ (ipv4HeaderLength b + 6) _ (by omega),
      IPVersion_set16 _ (ipv4HeaderLength b + 6) _ (by omega)]
    exact hv1
  have hPrR : ipv4Protocol (writeBuf b) = 17 := by
    rw [hR]
    unfold ipv4Protocol
    rw [byteAt_set16_ne _ (ipv4HeaderLength b + 6) _ 9 (by omega) (by omega),
      byteAt_set16_ne _ (ipv4HeaderLength b + 6) _ 9 (by omega) (by omega)]
    exact hPr1
  have hHLR : ipv4HeaderLength (writeBuf b) = ipv4HeaderLength b := by
    rw [hR, ipv4HeaderLength_set16 _ (ipv4HeaderLength b + 6) _ (by omega),
      ipv4HeaderLength_set16 _ (ipv4HeaderLength b + 6) _ (by omega)]
    exact hHL1
  have hTLR : ipv4TotalLength (writeBuf b) = ipv4TotalLength b := by
    rw [hR]
    unfold ipv4TotalLength
    rw [get16_set16_ne _ (ipv4HeaderLength b + 6) _ 2 (by omega),
      get16_set16_ne _ (ipv4HeaderLength b + 6) _ 2 (by omega)]
    exact hTL1
  have hdstR : ipv4DestinationAddress (writeBuf b)
      = ipv4DestinationAddress b := by
    rw [hR]
    unfold ipv4DestinationAddress
    rw [slice_set16_after _ 16 4 (ipv4HeaderLength b + 6) _ (by omega),
      slice_set16_after _ 16 4 (ipv4HeaderLength b + 6) _ (by omega)]
    exact hdst1
  have hsrcR : ipv4SourceAddress (writeBuf b) = ipv4SourceAddress b := by
    rw [hR]
    unfold ipv4SourceAddress
    rw [slice_set16_after _ 12 4 (ipv4HeaderLength b + 6) _ (by omega),
      slice_set16_after _ 12 4 (ipv4HeaderLength b + 6) _ (by omega)]
    exact hsrc1
  have hPayR : ipv4Payload (writeBuf b)
      = set16 (set16 (ipv4Payload b) 6 0) 6 CV := by
    rw [ipv4Payload_congr _ _ _ hHLR hTLR, hR,
      slice_set16_inside _ (ipv4HeaderLength b) _ 6 _,
      slice_set16_inside _ (ipv4HeaderLength b) _ 6 _, hPay1']
  have hULz : udpLength (set16 (set16 (ipv4Payload b) 6 0) 6 CV)
      = udpLength (ipv4Payload b) := by
    unfold udpLength
    rw [get16_set16_ne _ 6 _ 4 (by omega), get16_set16_ne _ 6 _ 4 (by omega)]
  -- bounds needed by the generic law
  have hseglen : (ipv4Payload b).length
      = ipv4TotalLength b - ipv4HeaderLength b := by
    unfold ipv4Payload
    rw [List.length_take_of_le (by rw [List.length_drop]; omega)]
  have hbseg : ∀ x ∈ ipv4Payload b, x < 256 := by
    intro x hx
    unfold ipv4Payload at hx
    exact hB x (List.drop_subset _ _ (List.take_subset _ _ hx))
  have hdlen : (ipv4DestinationAddress b).length = 4 := by
    unfold ipv4DestinationAddress
    rw [List.length_take_of_le (by rw [List.length_drop]; omega)]
  have hslen : (ipv4SourceAddress b).length = 4 := by
    unfold ipv4SourceAddress
    rw [List.length_take_of_le (by rw [List.length_drop]; omega)]
  have hUL : udpLength (ipv4Payload b) ≤ 65535 :=
    get16_le (ipv4Payload b) 4 hbseg
  have hbpseudo : ∀ x ∈ ipv4DestinationAddress b ++ (ipv4SourceAddress b
      ++ ([udpLength (ipv4Payload b) / 256, udpLength (ipv4Payload b) % 256]
        ++ [0, 17])), x < 256 := by
    intro x hx
    rcases List.mem_append.mp hx with hx | hx
    · exact hB x (List.drop_subset _ _ (List.take_subset _ _ hx))
    rcases List.mem_append.mp hx with hx | hx
    · exact hB x (List.drop_subset _ _ (List.take_subset _ _ hx))
    rcases List.mem_append.mp hx with hx | hx
    · rcases List.mem_cons.mp hx with rfl | hx
      · omega
      · rcases List.mem_cons.mp hx with rfl | hx
        · omega
        · simp at hx
    · rcases List.mem_cons.mp hx with rfl | hx
      · omega
      · rcases List.mem_cons.mp hx with rfl | hx
        · omega
        · simp at hx
  -- the generic round-trip law, instantiated
  have hgen := transport_roundtrip_generic
    (ipv4DestinationAddress b ++ (ipv4SourceAddress b
      ++ ([udpLength (ipv4Payload b) / 256, udpLength (ipv4Payload b) % 256]
        ++ [0, 17])))
    (ipv4Payload b) 8 3 (by omega) (by omega) (by omega) hbpseudo hbseg
  have h23 : (2 : Nat) * 3 = 6 := by norm_num
  rw [h23] at hgen
  rw [← pseudoHeaderChecksum_eq 17 (ipv4DestinationAddress b)
    (ipv4SourceAddress b) (udpLength (ipv4Payload b))
    (by rw [hdlen]) (by rw [hslen])] at hgen
  rw [← hCV] at hgen
  -- assemble
  unfold transportResum
  rw [if_pos hvR, if_pos hPrR, hdstR, hsrcR, hPayR, hULz]
  exact hgen

theorem ipv4_tcp_roundtrip (b : List Nat) (hB : BytesValid b)
    (hv : IPVersion b = 4) (hhl20 : 20 ≤ ipv4HeaderLength b)
    (htlb : ipv4TotalLength b ≤ b.length)
    (hp : ipv4Protocol b = 6)
    (hdo20 : 20 ≤ tcpDataOffset (ipv4Payload b))
    (hdole : ipv4HeaderLength b + tcpDataOffset (ipv4Payload b)
      ≤ ipv4TotalLength b) :
    transportResum (writeBuf b) = 65535 := by
  -- facts about the IPv4-header-checksum stage
  have hB1 : recomputeIPv4Checksum b
      = set16 (set16 b 10 0) 10
          (65535 - ipv4CalculateChecksum (set16 b 10 0)) := rfl
  have hv1 : IPVersion (recomputeIPv4Checksum b) = 4 := by
    rw [hB1, IPVersion_set16 _ 10 _ (by omega),
      IPVersion_set16 _ 10 _ (by omega), hv]
  have hHL1 : ipv4HeaderLength (recomputeIPv4Checksum b)
      = ipv4HeaderLength b := by
    rw [hB1, ipv4HeaderLength_set16 _ 10 _ (by omega),
      ipv4HeaderLength_set16 _ 10 _ (by omega)]
  have hTL1 : ipv4TotalLength (recomputeIPv4Checksum b)
      = ipv4TotalLength b := by
    rw [hB1]
    unfold ipv4TotalLength
    rw [get16_set16_ne _ 10 _ 2 (by omega), get16_set16_ne _ 10 _ 2 (by omega)]
  have hPL1 : ipv4PayloadLength (recomputeIPv4Checksum b)
      = ipv4PayloadLength b := by
    unfold ipv4PayloadLength
    rw [hTL1, hHL1]
  have hPr1 : ipv4Protocol (recomputeIPv4Checksum b) = 6 := by
    rw [hB1]
    unfold ipv4Protocol
    rw [byteAt_set16_ne _ 10 _ 9 (by omega) (by omega),
      byteAt_set16_ne _ 10 _ 9 (by omega) (by omega)]
    exact hp
  have hsrc1 : ipv4SourceAddress (recomputeIPv4Checksum b)
      = ipv4SourceAddress b := by
    rw [hB1]
    unfold ipv4SourceAddress
    rw [slice_set16_before _ 12 4 10 _ (by omega),
      slice_set16_before _ 12 4 10 _ (by omega)]
  have hdst1 : ipv4DestinationAddress (recomputeIPv4Checksum b)
      = ipv4DestinationAddress b := by
    rw [hB1]
    unfold ipv4DestinationAddress
    rw [slice_set16_before _ 16 4 10 _ (by omega),
      slice_set16_before _ 16 4 10 _ (by omega)]
  have hPay1' : ((recomputeIPv4Checksum b).drop (ipv4HeaderLength b)).take
        (ipv4TotalLength b - ipv4HeaderLength b)
      = ipv4Payload b := by
    rw [hB1, slice_set16_before _ (ipv4HeaderLength b) _ 10 _ (by omega),
      slice_set16_before _ (ipv4HeaderLength b) _ 10 _ (by omega)]
    rfl
  have hPay1 : ipv4Payload (recomputeIPv4Checksum b) = ipv4Payload b := by
    rw [ipv4Payload_congr _ _ _ hHL1 hTL1, hPay1']
  -- the write path takes the TCP-in-IPv4 branch
  have hWB : writeBuf b = recomputeTCPv4 (recomputeIPv4Checksum b) := by
    unfold writeBuf
    rw [if_pos hv, if_neg (by rw [hPr1]; omega), if_pos hPr1]
  -- facts about the TCP-checksum-zeroing stage
  have hHLz : ipv4HeaderLength (set16 (recomputeIPv4Checksum b)
        (ipv4HeaderLength b + 16) 0) = ipv4HeaderLength b := by
    rw [ipv4HeaderLength_set16 _ (ipv4HeaderLength b + 16) _ (by omega)]
    exact hHL1
  have hTLz : ipv4TotalLength (set16 (recomputeIPv4Checksum b)
        (ipv4HeaderLength b + 16) 0) = ipv4TotalLength b := by
    unfold ipv4TotalLength
    rw [get16_set16_ne _ (ipv4HeaderLength b + 16) _ 2 (by omega)]
    exact hTL1
  have hPayZ : ipv4Payload (set16 (recomputeIPv4Checksum b)
        (ipv4HeaderLength b + 16) 0) = set16 (ipv4Payload b) 16 0 := by
    rw [ipv4Payload_congr _ _ _ hHLz hTLz,
      slice_set16_inside _ (ipv4HeaderLength b) _ 16 _, hPay1']
  have hDOz : tcpDataOffset (set16 (ipv4Payload b) 16 0)
      = tcpDataOffset (ipv4Payload b) := by
    unfold tcpDataOffset
    rw [byteAt_set16_ne _ 16 _ 12 (by omega) (by omega)]
  -- the final buffer, in terms of the original packet's fields
  have hR : writeBuf b
      = set16 (set16 (recomputeIPv4Checksum b) (ipv4HeaderLength b + 16) 0)
          (ipv4HeaderLength b + 16)
          (65535 - chks (chks (pseudoHeaderChecksum 6
              (ipv4DestinationAddress b) (ipv4SourceAddress b)
              (ipv4PayloadLength b))
              ((ipv4Payload b).drop (tcpDataOffset (ipv4Payload b))))
            ((set16 (ipv4Payload b) 16 0).take
              (tcpDataOffset (ipv4Payload b)))) := by
    rw [hWB]
    unfold recomputeTCPv4 tcpCalculateChecksum tcpPayload
    rw [hHL1, hPayZ, hPay1, hdst1, hsrc1, hPL1, hDOz]
  -- abbreviate the written checksum value
  set CV := 65535 - chks (chks (pseudoHeaderChecksum 6
      (ipv4DestinationAddress b) (ipv4SourceAddress b)
      (ipv4PayloadLength b))
      ((ipv4Payload b).drop (tcpDataOffset (ipv4Payload b))))
    ((set16 (ipv4Payload b) 16 0).take (tcpDataOffset (ipv4Payload b)))
    with hCV
  -- accessor stability on the final buffer
  have hvR : IPVersion (writeBuf b) = 4 := by
    rw [hR, IPVersion_set16 _ (ipv4HeaderLength b + 16) _ (by omega),
      IPVersion_set16 _ (ipv4HeaderLength b + 16) _ (by omega)]
    exact hv1
  have hPrR : ipv4Protocol (writeBuf b) = 6 := by
    rw [hR]
    unfold ipv4Protocol
    rw [byteAt_set16_ne _ (ipv4HeaderLength b + 16) _ 9 (by omega) (by omega),
      byteAt_set16_ne _ (ipv4HeaderLength b + 16) _ 9 (by omega) (by omega)]
    exact hPr1
  have hHLR : ipv4HeaderLength (writeBuf b) = ipv4HeaderLength b := by
    rw [hR, ipv4HeaderLength_set16 _ (ipv4HeaderLength b + 16) _ (by omega),
      ipv4HeaderLength_set16 _ (ipv4HeaderLength b + 16) _ (by omega)]
    exact hHL1
  have hTLR : ipv4TotalLength (writeBuf b) = ipv4TotalLength b := by
    rw [hR]
    unfold ipv4TotalLength
    rw [get16_set16_ne _ (ipv4HeaderLength b + 16) _ 2 (by omega),
      get16_set16_ne _ (ipv4HeaderLength b + 16) _ 2 (by omega)]
    exact hTL1
  have hPLR : ipv4PayloadLength (writeBuf b) = ipv4PayloadLength b := by
    unfold ipv4PayloadLength
    rw [hTLR, hHLR]
  have hdstR : ipv4DestinationAddress (writeBuf b)
      = ipv4DestinationAddress b := by
    rw [hR]
    unfold ipv4DestinationAddress
    rw [slice_set16_after _ 16 4 (ipv4HeaderLength b + 16) _ (by omega),
      slice_set16_after _ 16 4 (ipv4HeaderLength b + 16) _ (by omega)]
    exact hdst1
  have hsrcR : ipv4SourceAddress (writeBuf b) = ipv4SourceAddress b := by
    rw [hR]
    unfold ipv4SourceAddress
    rw [slice_set16_after _ 12 4 (ipv4HeaderLength b + 16) _ (by omega),
      slice_set16_after _ 12 4 (ipv4HeaderLength b + 16) _ (by omega)]
    exact hsrc1
  have hPayR : ipv4Payload (writeBuf b)
      = set16 (set16 (ipv4Payload b) 16 0) 16 CV := by
    rw [ipv4Payload_congr _ _ _ hHLR hTLR, hR,
      slice_set16_inside _ (ipv4HeaderLength b) _ 16 _,
      slice_set16_inside _ (ipv4HeaderLength b) _ 16 _, hPay1']
  -- bounds needed by the generic law
  have hseglen : (ipv4Payload b).length
      = ipv4TotalLength b - ipv4HeaderLength b := by
    unfold ipv4Payload
    rw [List.length_take_of_le (by rw [List.length_drop]; omega)]
  have hbseg : ∀ x ∈ ipv4Payload b, x < 256 := by
    intro x hx
    unfold ipv4Payload at hx
    exact hB x (List.drop_subset _ _ (List.take_subset _ _ hx))
  have hdlen : (ipv4DestinationAddress b).length = 4 := by
    unfold ipv4DestinationAddress
    rw [List.length_take_of_le (by rw [List.length_drop]; omega)]
  have hslen : (ipv4SourceAddress b).length = 4 := by
    unfold ipv4SourceAddress
    rw [List.length_take_of_le (by rw [List.length_drop]; omega)]
  have hTLle : ipv4TotalLength b ≤ 65535 := get16_le b 2 hB
  have hPLle : ipv4PayloadLength b ≤ 65535 := by
    unfold ipv4PayloadLength
    omega
  have hdo2 : tcpDataOffset (ipv4Payload b) % 2 = 0 := by
    unfold tcpDataOffset
    omega
  have hbpseudo : ∀ x ∈ ipv4DestinationAddress b ++ (ipv4SourceAddress b
      ++ ([ipv4PayloadLength b / 256, ipv4PayloadLength b % 256]
        ++ [0, 6])), x < 256 := by
    intro x hx
    rcases List.mem_append.mp hx with hx | hx
    · exact hB x (List.drop_subset _ _ (List.take_subset _ _ hx))
    rcases List.mem_append.mp hx with hx | hx
    · exact hB x (List.drop_subset _ _ (List.take_subset _ _ hx))
    rcases List.mem_append.mp hx with hx | hx
    · rcases List.mem_cons.mp hx with rfl | hx
      · omega
      · rcases List.mem_cons.mp hx with rfl | hx
        · omega
        · simp at hx
    · rcases List.mem_cons.mp hx with rfl | hx
      · omega
      · rcases List.mem_cons.mp hx with rfl | hx
        · omega
        · simp at hx
  -- the generic round-trip law, instantiated
  have hgen := transport_roundtrip_generic
    (ipv4DestinationAddress b ++ (ipv4SourceAddress b
      ++ ([ipv4PayloadLength b / 256, ipv4PayloadLength b % 256]
        ++ [0, 6])))
    (ipv4Payload b) (tcpDataOffset (ipv4Payload b)) 8
    hdo2 (by omega) (by omega) hbpseudo hbseg
  have h216 : (2 : Nat) * 8 = 16 := by norm_num
  rw [h216] at hgen
  rw [← pseudoHeaderChecksum_eq 6 (ipv4DestinationAddress b)
    (ipv4SourceAddress b) (ipv4PayloadLength b)
    (by rw [hdlen]) (by rw [hslen])] at hgen
  rw [← hCV] at hgen
  -- assemble
  unfold transportResum
  rw [if_pos hvR, if_neg (by rw [hPrR]; omega), if_pos hPrR,
    hdstR, hsrcR, hPLR, hPayR]
  exact hgen

theorem ipv6Payload_congr (x : List Nat) (pl : Nat)
    (h : ipv6PayloadLength x = pl) :
    ipv6Payload x = (x.drop 40).take pl := by
  unfold ipv6Payload
  rw [h]

theorem ipv6_udp_roundtrip (b : List Nat) (hB : BytesValid b)
    (hv : IPVersion b = 6)
    (hplen : 40 + ipv6PayloadLength b ≤ b.length)
    (hp : ipv6NextHeader b = 17)
    (h8 : 8 ≤ ipv6PayloadLength b) :
    transportResum (writeBuf b) = 65535 := by
  -- the write path takes the UDP-in-IPv6 branch
  have hWB : writeBuf b = recomputeUDPv6 b := by
    unfold writeBuf
    rw [if_neg (by rw [hv]; decide), if_pos hv, if_pos hp]
  -- facts about the UDP-checksum-zeroing stage
  have hPLz : ipv6PayloadLength (set16 b (40 + 6) 0) = ipv6PayloadLength b := by
    unfold ipv6PayloadLength
    rw [get16_set16_ne _ (40 + 6) _ 4 (by omega)]
  have hPayZ : ipv6Payload (set16 b (40 + 6) 0)
      = set16 (ipv6Payload b) 6 0 := by
    rw [ipv6Payload_congr _ _ hPLz, slice_set16_inside _ 40 _ 6 _]
    rfl
  -- the final buffer, in terms of the original packet's fields
  have hR : writeBuf b
      = set16 (set16 b (40 + 6) 0) (40 + 6)
          (65535 - chks (chks (pseudoHeaderChecksum 17
              (ipv6DestinationAddress b) (ipv6SourceAddress b)
              (udpLength (ipv6Payload b)))
              ((ipv6Payload b).drop 8))
            ((set16 (ipv6Payload b) 6 0).take 8)) := by
    rw [hWB]
    unfold recomputeUDPv6 udpCalculateChecksum udpPayload
    rw [hPayZ]
  -- abbreviate the written checksum value
  set CV := 65535 - chks (chks (pseudoHeaderChecksum 17
      (ipv6DestinationAddress b) (ipv6SourceAddress b)
      (udpLength (ipv6Payload b)))
      ((ipv6Payload b).drop 8))
    ((set16 (ipv6Payload b) 6 0).take 8) with hCV
  -- accessor stability on the final buffer
  have hvR : IPVersion (writeBuf b) = 6 := by
    rw [hR, IPVersion_set16 _ (40 + 6) _ (by omega),
      IPVersion_set16 _ (40 + 6) _ (by omega), hv]
  have hNHR : ipv6NextHeader (writeBuf b) = 17 := by
    rw [hR]
    unfold ipv6NextHeader
    rw [byteAt_set16_ne _ (40 + 6) _ 6 (by omega) (by omega),
      byteAt_set16_ne _ (40 + 6) _ 6 (by omega) (by omega)]
    exact hp
  have hPLR : ipv6PayloadLength (writeBuf b) = ipv6PayloadLength b := by
    rw [hR]
    unfold ipv6PayloadLength
    rw [get16_set16_ne _ (40 + 6) _ 4 (by omega),
      get16_set16_ne _ (40 + 6) _ 4 (by omega)]
  have hdstR : ipv6DestinationAddress (writeBuf b)
      = ipv6DestinationAddress b := by
    rw [hR]
    unfold ipv6DestinationAddress
    rw [slice_set16_after _ 24 16 (40 + 6) _ (by omega),
      slice_set16_after _ 24 16 (40 + 6) _ (by omega)]
  have hsrcR : ipv6SourceAddress (writeBuf b) = ipv6SourceAddress b := by
    rw [hR]
    unfold ipv6SourceAddress
    rw [slice_set16_after _ 8 16 (40 + 6) _ (by omega),
      slice_set16_after _ 8 16 (40 + 6) _ (by omega)]
  have hPayR : ipv6Payload (writeBuf b)
      = set16 (set16 (ipv6Payload b) 6 0) 6 CV := by
    rw [ipv6Payload_congr _ _ hPLR, hR,
      slice_set16_inside _ 40 _ 6 _, slice_set16_inside _ 40 _ 6 _]
    rfl
  have hULz : udpLength (set16 (set16 (ipv6Payload b) 6 0) 6 CV)
      = udpLength (ipv6Payload b) := by
    unfold udpLength
    rw [get16_set16_ne _ 6 _ 4 (by omega), get16_set16_ne _ 6 _ 4 (by omega)]
  -- bounds needed by the generic law
  have hseglen : (ipv6Payload b).length = ipv6PayloadLength b := by
    unfold ipv6Payload
    rw [List.length_take_of_le (by rw [List.length_drop]; omega)]
  have hbseg : ∀ x ∈ ipv6Payload b, x < 256 := by
    intro x hx
    unfold ipv6Payload at hx
    exact hB x (List.drop_subset _ _ (List.take_subset _ _ hx))
  have hdlen : (ipv6DestinationAddress b).length = 16 := by
    unfold ipv6DestinationAddress
    rw [List.length_take_of_le (by rw [List.length_drop]; omega)]
  have hslen : (ipv6SourceAddress b).length = 16 := by
    unfold ipv6SourceAddress
    rw [List.length_take_of_le (by rw [List.length_drop]; omega)]
  have hUL : udpLength (ipv6Payload b) ≤ 65535 :=
    get16_le (ipv6Payload b) 4 hbseg
  have hbpseudo : ∀ x ∈ ipv6DestinationAddress b ++ (ipv6SourceAddress b
      ++ ([udpLength (ipv6Payload b) / 256, udpLength (ipv6Payload b) % 256]
        ++ [0, 17])), x < 256 := by
    intro x hx
    rcases List.mem_append.mp hx with hx | hx
    · exact hB x (List.drop_subset _ _ (List.take_subset _ _ hx))
    rcases List.mem_append.mp hx with hx | hx
    · exact hB x (List.drop_subset _ _ (List.take_subset _ _ hx))
    rcases List.mem_append.mp hx with hx | hx
    · rcases List.mem_cons.mp hx with rfl | hx
      · omega
      · rcases List.mem_cons.mp hx with rfl | hx
        · omega
        · simp at hx
    · rcases List.mem_cons.mp hx with rfl | hx
      · omega
      · rcases List.mem_cons.mp hx with rfl | hx
        · omega
        · simp at hx
  -- the generic round-trip law, instantiated
  have hgen := transport_roundtrip_generic
    (ipv6DestinationAddress b ++ (ipv6SourceAddress b
      ++ ([udpLength (ipv6Payload b) / 256, udpLength (ipv6Payload b) % 256]
        ++ [0, 17])))
    (ipv6Payload b) 8 3 (by omega) (by omega) (by omega) hbpseudo hbseg
  have h23 : (2 : Nat) * 3 = 6 := by norm_num
  rw [h23] at hgen
  rw [← pseudoHeaderChecksum_eq 17 (ipv6DestinationAddress b)
    (ipv6SourceAddress b) (udpLength (ipv6Payload b))
    (by rw [hdlen]) (by rw [hslen])] at hgen
  rw [← hCV] at hgen
  -- assemble
  unfold transportResum
  rw [if_neg (by rw [hvR]; decide), if_pos hvR, if_pos hNHR,
    hdstR, hsrcR, hPayR, hULz]
  exact hgen

theorem ipv6_tcp_roundtrip (b : List Nat) (hB : BytesValid b)
    (hv : IPVersion b = 6)
    (hplen : 40 + ipv6PayloadLength b ≤ b.length)
    (hp : ipv6NextHeader b = 6)
    (hdo20 : 20 ≤ tcpDataOffset (ipv6Payload b))
    (hdole : tcpDataOffset (ipv6Payload b) ≤ ipv6PayloadLength b) :
    transportResum (writeBuf b) = 65535 := by
  -- the write path takes the TCP-in-IPv6 branch
  have hWB : writeBuf b = recomputeTCPv6 b := by
    unfold writeBuf
    rw [if_neg (by rw [hv]; decide), if_pos hv, if_neg (by rw [hp]; omega),
      if_pos hp]
  -- facts about the TCP-checksum-zeroing stage
  have hPLz : ipv6PayloadLength (set16 b (40 + 16) 0)
      = ipv6PayloadLength b := by
    unfold ipv6PayloadLength
    rw [get16_set16_ne _ (40 + 16) _ 4 (by omega)]
  have hPayZ : ipv6Payload (set16 b (40 + 16) 0)
      = set16 (ipv6Payload b) 16 0 := by
    rw [ipv6Payload_congr _ _ hPLz, slice_set16_inside _ 40 _ 16 _]
    rfl
  have hDOz : tcpDataOffset (set16 (ipv6Payload b) 16 0)
      = tcpDataOffset (ipv6Payload b) := by
    unfold tcpDataOffset
    rw [byteAt_set16_ne _ 16 _ 12 (by omega) (by omega)]
  -- the final buffer, in terms of the original packet's fields
  have hR : writeBuf b
      = set16 (set16 b (40 + 16) 0) (40 + 16)
          (65535 - chks (chks (pseudoHeaderChecksum 6
              (ipv6DestinationAddress b) (ipv6SourceAddress b)
              (ipv6PayloadLength b))
              ((ipv6Payload b).drop (tcpDataOffset (ipv6Payload b))))
            ((set16 (ipv6Payload b) 16 0).take
              (tcpDataOffset (ipv6Payload b)))) := by
    rw [hWB]
    unfold recomputeTCPv6 tcpCalculateChecksum tcpPayload
    rw [hPayZ, hDOz]
  -- abbreviate the written checksum value
  set CV := 65535 - chks (chks (pseudoHeaderChecksum 6
      (ipv6DestinationAddress b) (ipv6SourceAddress b)
      (ipv6PayloadLength b))
      ((ipv6Payload b).drop (tcpDataOffset (ipv6Payload b))))
    ((set16 (ipv6Payload b) 16 0).take (tcpDataOffset (ipv6Payload b)))
    with hCV
  -- accessor stability on the final buffer
  have hvR : IPVersion (writeBuf b) = 6 := by
    rw [hR, IPVersion_set16 _ (40 + 16) _ (by omega),
      IPVersion_set16 _ (40 + 16) _ (by omega), hv]
  have hNHR : ipv6NextHeader (writeBuf b) = 6 := by
    rw [hR]
    unfold ipv6NextHeader
    rw [byteAt_set16_ne _ (40 + 16) _ 6 (by omega) (by omega),
      byteAt_set16_ne _ (40 + 16) _ 6 (by omega) (by omega)]
    exact hp
  have hPLR : ipv6PayloadLength (writeBuf b) = ipv6PayloadLength b := by
    rw [hR]
    unfold ipv6PayloadLength
    rw [get16_set16_ne _ (40 + 16) _ 4 (by omega),
      get16_set16_ne _ (40 + 16) _ 4 (by omega)]
  have hdstR : ipv6DestinationAddress (writeBuf b)
      = ipv6DestinationAddress b := by
    rw [hR]
    unfold ipv6DestinationAddress
    rw [slice_set16_after _ 24 16 (40 + 16) _ (by omega),
      slice_set16_after _ 24 16 (40 + 16) _ (by omega)]
  have hsrcR : ipv6SourceAddress (writeBuf b) = ipv6SourceAddress b := by
    rw [hR]
    unfold ipv6SourceAddress
    rw [slice_set16_after _ 8 16 (40 + 16) _ (by omega),
      slice_set16_after _ 8 16 (40 + 16) _ (by omega)]
  have hPayR : ipv6Payload (writeBuf b)
      = set16 (set16 (ipv6Payload b) 16 0) 16 CV := by
    rw [ipv6Payload_congr _ _ hPLR, hR,
      slice_set16_inside _ 40 _ 16 _, slice_set16_inside _ 40 _ 16 _]
    rfl
  -- bounds needed by the generic law
  have hseglen : (ipv6Payload b).length = ipv6PayloadLength b := by
    unfold ipv6Payload
    rw [List.length_take_of_le (by rw [List.length_drop]; omega)]
  have hbseg : ∀ x ∈ ipv6Payload b, x < 256 := by
    intro x hx
    unfold ipv6Payload at hx
    exact hB x (List.drop_subset _ _ (List.take_subset _ _ hx))
  have hdlen : (ipv6DestinationAddress b).length = 16 := by
    unfold ipv6DestinationAddress
    rw [List.length_take_of_le (by rw [List.length_drop]; omega)]
  have hslen : (ipv6SourceAddress b).length = 16 := by
    unfold ipv6SourceAddress
    rw [List.length_take_of_le (by rw [List.length_drop]; omega)]
  have hPLle : ipv6PayloadLength b ≤ 65535 := get16_le b 4 hB
  have hdo2 : tcpDataOffset (ipv6Payload b) % 2 = 0 := by
    unfold tcpDataOffset
    omega
  have hbpseudo : ∀ x ∈ ipv6DestinationAddress b ++ (ipv6SourceAddress b
      ++ ([ipv6PayloadLength b / 256, ipv6PayloadLength b % 256]
        ++ [0, 6])), x < 256 := by
    intro x hx
    rcases List.mem_append.mp hx with hx | hx
    · exact hB x (List.drop_subset _ _ (List.take_subset _ _ hx))
    rcases List.mem_append.mp hx with hx | hx
    · exact hB x (List.drop_subset _ _ (List.take_subset _ _ hx))
    rcases List.mem_append.mp hx with hx | hx
    · rcases List.mem_cons.mp hx with rfl | hx
      · omega
      · rcases List.mem_cons.mp hx with rfl | hx
        · omega
        · simp at hx
    · rcases List.mem_cons.mp hx with rfl | hx
      · omega
      · rcases List.mem_cons.mp hx with rfl | hx
        · omega
        · simp at hx
  -- the generic round-trip law, instantiated
  have hgen := transport_roundtrip_generic
    (ipv6DestinationAddress b ++ (ipv6SourceAddress b
      ++ ([ipv6PayloadLength b / 256, ipv6PayloadLength b % 256]
        ++ [0, 6])))
    (ipv6Payload b) (tcpDataOffset (ipv6Payload b)) 8
    hdo2 (by omega) (by omega) hbpseudo hbseg
  have h216 : (2 : Nat) * 8 = 16 := by norm_num
  rw [h216] at hgen
  rw [← pseudoHeaderChecksum_eq 6 (ipv6DestinationAddress b)
    (ipv6SourceAddress b) (ipv6PayloadLength b)
    (by rw [hdlen]) (by rw [hslen])] at hgen
  rw [← hCV] at hgen
  -- assemble
  unfold transportResum
  rw [if_neg (by rw [hvR]; decide), if_pos hvR, if_neg (by rw [hNHR]; omega),
    if_pos hNHR, hdstR, hsrcR, hPLR, hPayR]
  exact hgen

/-- C1: for every valid TCP or UDP segment embedded in an IPv4 or IPv6
packet handed to the push-producer `Write`, the recomputed transport
checksum satisfies the Internet checksum round-trip law: the
ones'-complement sum of pseudo-header, transport header and payload,
together with the written checksum field, equals the all-ones value. -/
theorem write_transport_checksum_roundtrip (b : List Nat)
    (h : ValidTransport b) : transportResum (writeBuf b) = 65535 := by
  obtain ⟨hB, hcase⟩ := h
  rcases hcase with ⟨hv, hhl20, htlb, hcase4⟩ | ⟨hv, hplen, hcase6⟩
  · rcases hcase4 with ⟨hp, h8⟩ | ⟨hp, hdo20, hdole⟩
    · exact ipv4_udp_roundtrip b hB hv hhl20 htlb hp h8
    · exact ipv4_tcp_roundtrip b hB hv hhl20 htlb hp hdo20 hdole
  · rcases hcase6 with ⟨hp, h8⟩ | ⟨hp, hdo20, hdole⟩
    · exact ipv6_udp_roundtrip b hB hv hplen hp h8
    · exact ipv6_tcp_roundtrip b hB hv hplen hp hdo20 hdole

theorem write_transport_checksum_roundtrip_witness :
    ValidTransport pktUDP4 ∧ transportResum (writeBuf pktUDP4) = 65535 :=
  ⟨by decide, write_transport_checksum_roundtrip pktUDP4 (by decide)⟩

/-! ## C3: unknown IP versions are silently dropped -/

/-- C3: for every byte sequence whose version nibble is neither 4 nor 6,
the pump-loop classification forwards zero packets and the push-producer
`Write` injects zero packets and raises no error. -/
theorem unknown_version_silently_dropped (buf : List Nat)
    (h4 : IPVersion buf ≠ 4) (h6 : IPVersion buf ≠ 6) :
    classifyInject buf = [] ∧ (endpointWrite buf).injected = [] ∧
      (endpointWrite buf).err = none := by
  unfold classifyInject endpointWrite
  simp [h4, h6]

theorem unknown_version_silently_dropped_witness :
    IPVersion [80] ≠ 4 ∧ IPVersion [80] ≠ 6 ∧
      (classifyInject [80] = [] ∧ (endpointWrite [80]).injected = [] ∧
        (endpointWrite [80]).err = none) :=
  ⟨by decide, by decide,
    unknown_version_silently_dropped [80] (by decide) (by decide)⟩

/-! ## C4: the offset-read pump strips the 4-byte frame prefix -/

/-- C4: with frame-prefix width 4, a device read delivering 4 prefix
bytes plus a 20-byte payload leads the pump to classify and forward a
packet of exactly 20 bytes starting after the prefix. -/
theorem offset_read_strips_frame_bytes (raw : List Nat) (h : 24 ≤ raw.length)
    (pr : Nat) (pkt : List Nat)
    (hmem : (pr, pkt) ∈ (pumpLoopUnix [ReadOutcome.ok raw 20]).1) :
    pkt = (raw.drop 4).take 20 ∧ pkt.length = 20 := by
  have hlen : ((raw.drop 4).take 20).length = 20 := by
    simp only [List.length_take, List.length_drop]
    omega
  simp only [pumpLoopUnix, List.append_nil] at hmem
  unfold classifyInject at hmem
  split at hmem
  · simp only [List.mem_singleton, Prod.mk.injEq] at hmem
    exact ⟨hmem.2, hmem.2 ▸ hlen⟩
  · split at hmem
    · simp only [List.mem_singleton, Prod.mk.injEq] at hmem
      exact ⟨hmem.2, hmem.2 ▸ hlen⟩
    · simp at hmem

theorem offset_read_strips_frame_bytes_witness :
    24 ≤ raw24.length ∧
      (2048, (raw24.drop 4).take 20) ∈ (pumpLoopUnix [ReadOutcome.ok raw24 20]).1 ∧
      ((raw24.drop 4).take 20 = (raw24.drop 4).take 20 ∧
        ((raw24.drop 4).take 20).length = 20) :=
  ⟨by decide, by decide,
    offset_read_strips_frame_bytes raw24 (by decide) 2048 _ (by decide)⟩

/-! ## C5: the pump forwards exactly the pre-error reads, then stops -/

/-- C5: with K successful device reads followed by an error, both pump
loops forward exactly the classified packets of the K successes (in
order, unknown versions dropped), exit on the error, and issue exactly
K + 1 reads — none after the failing one, whatever the device would
deliver next. -/
theorem pump_forwards_until_error (succ : List (List Nat × Nat))
    (rest : List ReadOutcome) :
    pumpLoopUnix (succ.map (fun p => ReadOutcome.ok p.1 p.2)
        ++ ReadOutcome.fail :: rest)
      = ((succ.map (fun p => classifyInject ((p.1.drop 4).take p.2))).flatten,
         succ.length + 1)
  ∧ pumpLoopWin (succ.map (fun p => ReadOutcome.ok p.1 p.2)
        ++ ReadOutcome.fail :: rest)
      = ((succ.map (fun p => classifyInject (p.1.take p.2))).flatten,
         succ.length + 1) := by
  induction succ with
  | nil => simp [pumpLoopUnix, pumpLoopWin]
  | cons p t ih =>
    simp [pumpLoopUnix, pumpLoopWin, ih.1, ih.2]

/-! ## C6: the windows WriteNotify dereferences an empty-queue read -/

/-- C6 (divergence witness): when the outbound queue is empty, the unix
`WriteNotify` re-checks and no-ops, but the windows `WriteNotify` uses
the nil packet returned by `Read()` without a check and dereferences
it. -/
theorem winWriteNotify_empty_queue_deref :
    winWriteNotify none = NotifyOutcome.nilDeref ∧
      (∀ scratch : List Nat, unixWriteNotify none scratch = NotifyOutcome.noop) :=
  ⟨rfl, fun _ => rfl⟩

/-! ## C8: the drained buffer is the in-order concatenation -/

/-- C8: for every dequeued packet, the buffer handed to the device write
is exactly frame prefix (4 scratch bytes left as-is for the offset
variant, none for the direct-write variant) ++ network header ++
transport header ++ flattened payload. -/
theorem drain_buffer_concatenation (scratch : List Nat) (pkt : OutPacket) :
    unixWriteNotify (some pkt) scratch
      = NotifyOutcome.wrote
          (scratch.take 4 ++ (pkt.networkHeader ++ (pkt.transportHeader
            ++ pkt.payloadSegments.flatten))) 4
  ∧ winWriteNotify (some pkt)
      = NotifyOutcome.wrote
          (pkt.networkHeader ++ (pkt.transportHeader
            ++ pkt.payloadSegments.flatten)) 0 := by
  constructor <;>
    simp [unixWriteNotify, winWriteNotify, unixNotifyBuf, winNotifyBuf,
      flattenSegs_eq_flatten, List.append_assoc]

/-! ## C9: capability mismatch at attach time is fatal -/

/-- C9: a device supporting none of the capability variants makes
construction/attachment panic with no pump loop started, on both
platforms; a device matching a variant attaches without that failure. -/
theorem attach_capability_check (d : DeviceModel) :
    ((d.hasReader = false ∧ d.hasWriterTo = false) ↔
      windowsAttach d = AttachResult.fatal) ∧
    (d.hasReader = true → windowsAttach d = AttachResult.pumpStarted) ∧
    (d.hasReader = false → d.hasWriterTo = true →
      windowsAttach d = AttachResult.pushProducer) ∧
    (d.hasWriterOffset = false ↔ unixNewEndpointOk d = false) ∧
    (d.hasReaderOffset = false ↔ unixAttach d = AttachResult.fatal) ∧
    (d.hasReaderOffset = true → unixAttach d = AttachResult.pumpStarted) := by
  obtain ⟨r, w, ro, wo⟩ := d
  cases r <;> cases w <;> cases ro <;> cases wo <;> decide

theorem attach_capability_check_witness :
    windowsAttach devNone = AttachResult.fatal ∧
    unixAttach devNone = AttachResult.fatal ∧
    windowsAttach devPush = AttachResult.pushProducer :=
  ⟨(attach_capability_check devNone).1.mp ⟨rfl, rfl⟩,
   (attach_capability_check devNone).2.2.2.2.1.mp rfl,
   (attach_capability_check devPush).2.2.1 rfl rfl⟩

/-! ## C10: `endpoint.Write` always reports full acceptance -/

/-- C10: for every input, the push-producer `Write` returns
`(len(b), nil)`; in particular, an unknown version nibble is dropped
silently, without injection and without error. -/
theorem write_full_acceptance (b : List Nat) :
    (endpointWrite b).n = b.length ∧ (endpointWrite b).err = none ∧
    (IPVersion b ≠ 4 → IPVersion b ≠ 6 → (endpointWrite b).injected = []) := by
  unfold endpointWrite
  split_ifs <;> simp_all [writeBuf_length]

/-! ## C7: the scratch-buffer lock serializes concurrent drains -/

theorem drainInv_init (pkts : Fin 2 → List Nat) : DrainInv pkts drainInit := by
  refine ⟨?_, ?_, ?_⟩
  · intro t k h
    simp [drainInit] at h
  · intro t h
    simp [drainInit] at h
  · intro w hw
    simp [drainInit] at hw

theorem drainInv_step (pkts : Fin 2 → List Nat) {s s' : DrainState}
    (hstep : DrainStep pkts s s') (hinv : DrainInv pkts s) : DrainInv pkts s' := by
  obtain ⟨hfill, hwrote, hwrites⟩ := hinv
  cases hstep with
  | lock t s0 h1 h2 =>
    refine ⟨?_, ?_, hwrites⟩
    · intro u k hu
      dsimp only at hu ⊢
      by_cases hut : u = t
      · subst hut
        rw [Function.update_same] at hu
        injection hu with hk
        subst hk
        exact ⟨rfl, Nat.zero_le _, rfl⟩
      · rw [Function.update_noteq hut] at hu
        exact absurd (hfill u k hu).1 (by rw [h1]; exact fun h => Option.noConfusion h)
    · intro u hu
      dsimp only at hu ⊢
      by_cases hut : u = t
      · subst hut
        rw [Function.update_same] at hu
        exact absurd hu (by exact fun h => DrainPC.noConfusion h)
      · rw [Function.update_noteq hut] at hu
        exact absurd (hwrote u hu).1 (by rw [h1]; exact fun h => Option.noConfusion h)
  | fill t s0 k h hk =>
    obtain ⟨hmu, hkle, hbuf⟩ := hfill t k h
    refine ⟨?_, ?_, hwrites⟩
    · intro u k' hu
      dsimp only at hu ⊢
      by_cases hut : u = t
      · subst hut
        rw [Function.update_same] at hu
        injection hu with hk'
        subst hk'
        refine ⟨hmu, hk, ?_⟩
        rw [hbuf, List.getD_eq_getElem (pkts u) 0 hk, List.take_concat_get']
      · rw [Function.update_noteq hut] at hu
        have := (hfill u k' hu).1
        rw [hmu] at this
        exact absurd (Option.some.inj this) (fun h => hut h.symm)
    · intro u hu
      dsimp only at hu ⊢
      by_cases hut : u = t
      · subst hut
        rw [Function.update_same] at hu
        exact absurd hu (fun h => DrainPC.noConfusion h)
      · rw [Function.update_noteq hut] at hu
        have := (hwrote u hu).1
        rw [hmu] at this
        exact absurd (Option.some.inj this) (fun h => hut h.symm)
  | write t s0 h =>
    obtain ⟨hmu, hkle, hbuf⟩ := hfill t (pkts t).length h
    have hbuf' : s.buff = pkts t := by rw [hbuf, List.take_length]
    refine ⟨?_, ?_, ?_⟩
    · intro u k' hu
      dsimp only at hu ⊢
      by_cases hut : u = t
      · subst hut
        rw [Function.update_same] at hu
        exact absurd hu (fun hh => DrainPC.noConfusion hh)
      · rw [Function.update_noteq hut] at hu
        have := (hfill u k' hu).1
        rw [hmu] at this
        exact absurd (Option.some.inj this) (fun hh => hut hh.symm)
    · intro u hu
      dsimp only at hu ⊢
      by_cases hut : u = t
      · subst hut
        exact ⟨hmu, hbuf'⟩
      · rw [Function.update_noteq hut] at hu
        have := (hwrote u hu).1
        rw [hmu] at this
        exact absurd (Option.some.inj this) (fun hh => hut hh.symm)
    · intro w hw
      dsimp only at hw
      rcases List.mem_append.mp hw with hw | hw
      · exact hwrites w hw
      · rw [List.mem_singleton.mp hw, hbuf']
        have ht2 : t = 0 ∨ t = 1 := by fin_cases t <;> simp
        rcases ht2 with rfl | rfl
        · exact Or.inl rfl
        · exact Or.inr rfl
  | unlock t s0 h =>
    obtain ⟨hmu, hbuf⟩ := hwrote t h
    refine ⟨?_, ?_, hwrites⟩
    · intro u k' hu
      dsimp only at hu ⊢
      by_cases hut : u = t
      · subst hut
        rw [Function.update_same] at hu
        exact absurd hu (fun hh => DrainPC.noConfusion hh)
      · rw [Function.update_noteq hut] at hu
        have h1 := (hfill u k' hu).1
        rw [hmu] at h1
        exact absurd (Option.some.inj h1) (fun hh => hut hh.symm)
    · intro u hu
      dsimp only at hu ⊢
      by_cases hut : u = t
      · subst hut
        rw [Function.update_same] at hu
        exact absurd hu (fun hh => DrainPC.noConfusion hh)
      · rw [Function.update_noteq hut] at hu
        have h1 := (hwrote u hu).1
        rw [hmu] at h1
        exact absurd (Option.some.inj h1) (fun hh => hut hh.symm)

theorem drainInv_reachable (pkts : Fin 2 → List Nat) (s : DrainState)
    (h : Relation.ReflTransGen (DrainStep pkts) drainInit s) :
    DrainInv pkts s := by
  induction h with
  | refl => exact drainInv_init pkts
  | tail hab hbc ih => exact drainInv_step pkts hbc ih

/-- C7: in every reachable state of two concurrent `WriteNotify`
invocations, at most one drain is inside the buffer-fill-and-write
critical section, and every completed device write is exactly one
thread's whole packet — never a mix of bytes from two packets. -/
theorem drain_writes_never_mixed (pkts : Fin 2 → List Nat) (s : DrainState)
    (h : Relation.ReflTransGen (DrainStep pkts) drainInit s) :
    (∀ w ∈ s.writes, w = pkts 0 ∨ w = pkts 1) ∧
    ¬((s.pc 0).inCritical = true ∧ (s.pc 1).inCritical = true) := by
  obtain ⟨hfill, hwrote, hwrites⟩ := drainInv_reachable pkts s h
  refine ⟨hwrites, ?_⟩
  have key : ∀ t, (s.pc t).inCritical = true → s.mutex = some t := by
    intro t ht
    cases hpc : s.pc t with
    | idle => rw [hpc] at ht; exact absurd ht (by simp [DrainPC.inCritical])
    | finished => rw [hpc] at ht; exact absurd ht (by simp [DrainPC.inCritical])
    | filling k => exact (hfill t k hpc).1
    | wroteBuf => exact (hwrote t hpc).1
  rintro ⟨h0, h1⟩
  have e0 := key 0 h0
  have e1 := key 1 h1
  rw [e0] at e1
  exact absurd (Option.some.inj e1) (by decide)

theorem drain_writes_never_mixed_witness :
    (∀ w ∈ drainInit.writes, w = drainPkts 0 ∨ w = drainPkts 1) ∧
    ¬((drainInit.pc 0).inCritical = true ∧ (drainInit.pc 1).inCritical = true) :=
  drain_writes_never_mixed drainPkts drainInit Relation.ReflTransGen.refl

theorem write_full_acceptance_witness :
    (endpointWrite [80]).n = [80].length ∧ (endpointWrite [80]).err = none ∧
      (endpointWrite [80]).injected = [] :=
  ⟨(write_full_acceptance [80]).1, (write_full_acceptance [80]).2.1,
   (write_full_acceptance [80]).2.2 (by decide) (by decide)⟩

end Shadow
